import Mathlib

/-!
# jscbridge: the JavaScriptCore / JNI call bridge (`src/main/cpp/jsc_bridge.cpp`)

A shallow embedding of `jsValueToString`, `nativeCallback` and the JNI entry points of
`evaluateScript` and `setObjectForKey`, with the platform services they call:

* strings on either side of the bridge are lists of UTF-16 code units, as in the engine
  and in the host runtime; a surrogate may stand unpaired;
* a `char*` buffer is the list of bytes found at the pointer, and every reader of a
  `const char*` (the `std::string` constructor, `NewStringUTF`,
  `JSStringCreateWithUTF8CString`, the `%s` of a log call) stops at the first zero byte;
* the script side writes and reads UTF-8 (`JSStringGetUTF8CString`,
  `JSStringCreateWithUTF8CString`) and is strict about it: writing stops at an unpaired
  surrogate, reading refuses malformed bytes; the host side writes and reads modified
  UTF-8 (`GetStringUTFChars`, `NewStringUTF`);
* the global object is a table of properties, each writable or not; a put on a property
  that is not writable, or of a new property on a global object that is not extensible,
  changes nothing;
* the script engine (evaluation, string coercion) and the host classes are parameters;
  a string coercion is a function of the value (a `toString` that runs script is not
  followed into that script);
* every observable step (log entry, thread attachment, method lookup, coercion, host
  invocation, evaluation) is recorded in a trace.

`JNI_OnLoad` and `create` take no part in the properties below and are left out.
-/

namespace JSCBridge

/-! ## Strings and `char*` buffers -/

/-- A UTF-16 code unit. -/
abbrev CodeUnit := Fin 0x10000

/-- A script-side string (`JSStringRef` contents): UTF-16 code units. -/
abbrev JSStr := List CodeUnit

/-- A host-side string (`jstring` contents): UTF-16 code units. -/
abbrev JString := List CodeUnit

/-- Bytes of a `char` buffer, or of a `std::string`. -/
abbrev Bytes := List Nat

/-- The code unit of value `n` (for `n` below 0x10000). -/
def unit (n : Nat) : CodeUnit := ⟨n % 0x10000, Nat.mod_lt _ (by decide)⟩

/-- A high (leading) surrogate, D800..DBFF. -/
def isHigh (u : CodeUnit) : Bool := 0xD800 ≤ u.val && u.val < 0xDC00

/-- A low (trailing) surrogate, DC00..DFFF. -/
def isLow (u : CodeUnit) : Bool := 0xDC00 ≤ u.val && u.val < 0xE000

/-- The scalar value a surrogate pair stands for. -/
def pairValue (h l : CodeUnit) : Nat :=
  0x10000 + (h.val - 0xD800) * 0x400 + (l.val - 0xDC00)

/-- UTF-16 form of one scalar value: one code unit, or a surrogate pair. -/
def utf16EncodeChar (c : Char) : List CodeUnit :=
  if c.toNat < 0x10000 then [unit c.toNat]
  else [unit (0xD800 + (c.toNat - 0x10000) / 0x400),
    unit (0xDC00 + (c.toNat - 0x10000) % 0x400)]

/-- UTF-16 form of a sequence of scalar values. -/
def utf16Encode : List Char → List CodeUnit
  | [] => []
  | c :: s => utf16EncodeChar c ++ utf16Encode s

/-- The UTF-16 form of a literal. -/
def utf16 (s : String) : List CodeUnit := utf16Encode s.toList

/-- The scalar values of a UTF-16 string, up to its first unpaired surrogate (a high
surrogate not followed by a low one, or a low one not preceded by a high one). -/
def scalarsOf : List CodeUnit → List Char
  | [] => []
  | u :: s =>
    if isHigh u then
      match s with
      | v :: rest => if isLow v then Char.ofNat (pairValue u v) :: scalarsOf rest else []
      | [] => []
    else if isLow u then []
    else Char.ofNat u.val :: scalarsOf s

/-- The string has no unpaired surrogate. -/
def wellFormed : List CodeUnit → Bool
  | [] => true
  | u :: s =>
    if isHigh u then
      match s with
      | v :: rest => isLow v && wellFormed rest
      | [] => false
    else !isLow u && wellFormed s

/-- The part of a string before its first U+0000 or unpaired surrogate, whichever comes
first. -/
def cutAtNulOrUnpaired : List CodeUnit → List CodeUnit
  | [] => []
  | u :: s =>
    if u.val = 0 then []
    else if isHigh u then
      match s with
      | v :: rest => if isLow v then u :: v :: cutAtNulOrUnpaired rest else []
      | [] => []
    else if isLow u then []
    else u :: cutAtNulOrUnpaired s

/-- What a reader of a `const char*` sees: the bytes before the first zero byte. -/
def cRead (buf : Bytes) : Bytes :=
  buf.takeWhile (fun b => b != 0)

/-- The scalar values before the first U+0000. -/
def cutAtNul (s : List Char) : List Char :=
  s.takeWhile (fun c => c.toNat != 0)

/-- The one- to four-byte UTF-8 form of the value `n` (the value 0 is the byte 0). -/
def utf8EncodeNat (n : Nat) : Bytes :=
  if n < 0x80 then [n]
  else if n < 0x800 then [0xC0 + n / 0x40, 0x80 + n % 0x40]
  else if n < 0x10000 then [0xE0 + n / 0x1000, 0x80 + n / 0x40 % 0x40, 0x80 + n % 0x40]
  else [0xF0 + n / 0x40000, 0x80 + n / 0x1000 % 0x40, 0x80 + n / 0x40 % 0x40, 0x80 + n % 0x40]

/-- UTF-8 encoding of one scalar value. -/
def utf8EncodeChar (c : Char) : Bytes := utf8EncodeNat c.toNat

/-- UTF-8 encoding of a string. -/
def utf8Encode : List Char → Bytes
  | [] => []
  | c :: s => utf8EncodeChar c ++ utf8Encode s

/-- Modified UTF-8 form of one code unit that is not part of a surrogate pair: U+0000 is
written as the two bytes C0 80, every other unit in its one- to three-byte form, an
unpaired surrogate included (ED A0 80 for D800). -/
def mutf8Unit (u : CodeUnit) : Bytes :=
  if u.val = 0 then [0xC0, 0x80] else utf8EncodeNat u.val

/-- Modified UTF-8 of the host runtime (JNI), as the Android runtime writes it: a
surrogate pair in the four-byte form of its scalar value, every other code unit by
`mutf8Unit`. The encoded form has no zero byte. -/
def mutf8Encode : List CodeUnit → Bytes
  | [] => []
  | u :: s =>
    if isHigh u then
      match s with
      | v :: rest =>
        if isLow v then utf8EncodeNat (pairValue u v) ++ mutf8Encode rest
        else mutf8Unit u ++ mutf8Encode (v :: rest)
      | [] => mutf8Unit u
    else mutf8Unit u ++ mutf8Encode s

/-- A continuation byte, 80..BF. -/
def isCont (b : Nat) : Bool := 0x80 ≤ b && b < 0xC0

/-- The scalar value `n` as a decoded character, when `n` is one and is at least `lo`
(the least value that needs this many bytes). -/
def scalar (lo n : Nat) : Option Char :=
  if lo ≤ n ∧ n.isValidChar then some (Char.ofNat n) else none

/-- State of the decoder inside a multi-byte form. -/
structure Pending where
  /-- continuation bytes still to come -/
  need : Nat
  /-- value bits read so far -/
  acc : Nat
  /-- least scalar value that needs a form of this length -/
  lo : Nat
  /-- the lead byte was C0 and the two-byte form of U+0000 is accepted -/
  zero : Bool

/-- UTF-8 decoder to scalar values, one byte at a time. It refuses malformed input (stray
or missing continuation bytes, over-long forms, the three-byte form of a surrogate,
values above U+10FFFF) with `none`. With `modified` set it also reads the two bytes C0 80
as U+0000, as the host runtime does. -/
def utf8DecodeFrom (modified : Bool) : Option Pending → Bytes → Option (List Char)
  | none, [] => some []
  | some _, [] => none
  | none, b :: r =>
    if b < 0x80 then (utf8DecodeFrom modified none r).map (fun s => Char.ofNat b :: s)
    else if b < 0xC0 then none
    else if b < 0xE0 then
      utf8DecodeFrom modified (some ⟨1, b - 0xC0, 0x80, modified && b == 0xC0⟩) r
    else if b < 0xF0 then utf8DecodeFrom modified (some ⟨2, b - 0xE0, 0x800, false⟩) r
    else if b < 0xF8 then utf8DecodeFrom modified (some ⟨3, b - 0xF0, 0x10000, false⟩) r
    else none
  | some p, b :: r =>
    if isCont b then
      let acc := p.acc * 0x40 + (b - 0x80)
      if p.need ≤ 1 then
        match (if p.zero && acc == 0 then some (Char.ofNat 0) else scalar p.lo acc) with
        | some c => (utf8DecodeFrom modified none r).map (fun s => c :: s)
        | none => none
      else utf8DecodeFrom modified (some ⟨p.need - 1, acc, p.lo, p.zero⟩) r
    else none

/-- Decoding of a whole byte string. -/
def utf8Decode (modified : Bool) (bs : Bytes) : Option (List Char) :=
  utf8DecodeFrom modified none bs

/-! ## Platform services: string conversions -/

/-- A C string literal of the source, as the bytes at its address. -/
def cLiteral (s : String) : Bytes := utf8Encode s.toList ++ [0]

/-- `std::string(ptr)`: copies the bytes up to the first zero byte. -/
def stdString (ptr : Bytes) : Bytes := cRead ptr

/-- `s.c_str()`: the bytes of the `std::string` followed by a zero byte. -/
def c_str (s : Bytes) : Bytes := s ++ [0]

/-- `JSStringGetUTF8CString(string, buffer, JSStringGetMaximumUTF8CStringSize(string))`
("converts a JavaScript string into a null-terminated UTF8 string, and copies the result
into an external byte buffer"): the buffer, which is large enough, holds the string in
UTF-8, a U+0000 of the string as a zero byte, followed by the terminating zero byte. The
conversion is strict: it stops at the first unpaired surrogate, and the terminator
follows what was converted up to there. -/
def JSStringGetUTF8CString (string : JSStr) : Bytes :=
  utf8Encode (scalarsOf string) ++ [0]

/-- `JSStringCreateWithUTF8CString(ptr)` ("the null-terminated UTF8 string to copy into
the new JSString"): the C string at `ptr` read as UTF-8. Where the bytes are not valid
UTF-8 (the form C0 80 and the three-byte form of a surrogate among them) the engine's
conversion fails and the new string is empty. -/
def JSStringCreateWithUTF8CString (ptr : Bytes) : JSStr :=
  utf16Encode ((utf8Decode false (cRead ptr)).getD [])

/-- `env->NewStringUTF(ptr)` ("constructs a new `java.lang.String` object from an array
of characters in modified UTF-8 encoding"): the C string at `ptr` read as modified UTF-8,
a four-byte form as a surrogate pair, as the Android runtime reads it. The bridge only
hands it UTF-8 written by the engine and cut at a zero byte, which `utf8Decode` reads
back in full (`utf8Decode_utf8Encode`); for other bytes the model gives the empty
string. -/
def NewStringUTF (ptr : Bytes) : JString :=
  utf16Encode ((utf8Decode true (cRead ptr)).getD [])

/-- `env->GetStringUTFChars(s, nullptr)` ("returns a pointer to an array of bytes
representing the string in modified UTF-8 encoding"): the string in modified UTF-8,
followed by the terminating zero byte. -/
def GetStringUTFChars (s : JString) : Bytes := mutf8Encode s ++ [0]

/-! ## Values, host objects, engine -/

/-- A `jobject`: the reference held (`ref`) and the host object it refers to (`obj`). -/
structure JObject where
  ref : Nat
  obj : Nat
  deriving DecidableEq

/-- A script object made from the callback class; `priv` is its private slot. -/
structure JSObject where
  priv : Option JObject
  deriving DecidableEq

/-- A script value. `other` stands for every value the bridge never builds itself
(numbers, booleans, arrays, plain objects, ...). -/
inductive JSValue where
  | undefined
  | string (s : JSStr)
  | object (o : JSObject)
  | other (tag : Nat)
  deriving DecidableEq

/-- A `JSValueRef`, which may be null. -/
abbrev JSValueRef := Option JSValue

/-- `JSValueMakeUndefined(ctx)`. -/
def JSValueMakeUndefined : JSValue := JSValue.undefined

/-- `JSValueMakeString(ctx, string)`. -/
def JSValueMakeString (string : JSStr) : JSValue := JSValue.string string

/-- `JSObjectGetPrivate(object)`. -/
def JSObjectGetPrivate (object : JSObject) : Option JObject := object.priv

/-- A property a read or a put of the global object finds: the value a read gives, and
whether a put replaces that value. Not writable are the read-only properties
(`undefined`, `NaN`, `Infinity`, and those a script has made so) and any other property
the engine does not replace on a put, such as one with a setter. -/
structure Property where
  value : JSValue
  writable : Bool
  deriving DecidableEq

/-- A global context of the engine: the property table of its global object, and whether
the global object takes new properties. -/
structure JSGlobalContext where
  globalObject : List (JSStr × Property)
  extensible : Bool
  deriving DecidableEq

/-- The engine carries out a put of `key` on the global object: the property is there and
writable, or it is not there and the global object is extensible. -/
def JSGlobalContext.acceptsPut (ctx : JSGlobalContext) (key : JSStr) : Bool :=
  match ctx.globalObject.lookup key with
  | some p => p.writable
  | none => ctx.extensible

/-- What `JSEvaluateScript` hands back: the returned value and the exception slot. -/
structure EvalOutcome where
  result : JSValueRef
  exception : JSValueRef
  deriving DecidableEq

/-- The script engine, as far as the bridge relies on it. -/
structure Engine where
  /-- `JSValueToStringCopy(ctx, value, nullptr)`: the engine's string coercion; null when
  the conversion throws -/
  JSValueToStringCopy : JSValue → Option JSStr
  /-- `JSEvaluateScript(ctx, script, nullptr, sourceURL, 0, &exception)` -/
  JSEvaluateScript : JSGlobalContext → JSStr → JSStr → EvalOutcome

/-- A method of a host class: name, JNI signature, and what a call returns (the returned
reference; null for a void method). -/
structure JMethod where
  name : String
  sig : String
  body : List JString → Option JString

/-- A host class: the methods `GetMethodID` can find in it. -/
structure JClass where
  methods : List JMethod

/-- A `jmethodID`. -/
structure JMethodID where
  name : String
  sig : String
  deriving DecidableEq

/-- The host runtime: the class of each host object (`env->GetObjectClass`). -/
structure JVM where
  GetObjectClass : JObject → JClass

/-- The class has a method of this name and signature. -/
def JClass.hasMethod (cls : JClass) (name sig : String) : Bool :=
  cls.methods.any (fun m => m.name == name && m.sig == sig)

/-- `env->GetMethodID(cls, name, sig)` followed by the `ExceptionCheck` / `ExceptionClear`
of the source: the method ID, or null when the class has no such method. -/
def GetMethodID (cls : JClass) (name sig : String) : Option JMethodID :=
  if cls.hasMethod name sig then some ⟨name, sig⟩ else none

/-- `env->CallObjectMethod(obj, mid, args...)` / `env->CallVoidMethod(obj, mid, args...)`:
the reference the method returns. -/
def CallMethod (cls : JClass) (mid : JMethodID) (args : List JString) : Option JString :=
  match cls.methods.find? (fun m => m.name == mid.name && m.sig == mid.sig) with
  | some m => m.body args
  | none => none

/-! ## Trace of observable steps -/

/-- Android log priority used by `LOGI` / `LOGE`. -/
inductive Priority where
  | info
  | error
  deriving DecidableEq

/-- Argument of a log format. -/
inductive LogArg where
  | num (n : Nat)
  | str (bytes : Bytes)
  deriving DecidableEq

/-- One observable step of the bridge. -/
inductive Event where
  /-- `LOGI(fmt, args...)` or `LOGE(fmt, args...)` -/
  | log (prio : Priority) (fmt : String) (args : List LogArg)
  /-- `getEnv()`: `GetEnv`, and `AttachCurrentThread` when the thread is not attached -/
  | getEnv
  /-- `env->GetObjectClass(obj)` -/
  | getObjectClass (obj : JObject)
  /-- `env->GetMethodID(cls, name, sig)` -/
  | getMethodID (name sig : String)
  /-- `JSValueToStringCopy(ctx, value, nullptr)` -/
  | toStringCopy (value : JSValue)
  /-- `env->CallVoidMethod` / `env->CallObjectMethod` on `recv` -/
  | callMethod (recv : JObject) (mid : JMethodID) (args : List JString)
  /-- `JSEvaluateScript(ctx, script, nullptr, sourceURL, 0, &exception)` -/
  | evaluate (script sourceURL : JSStr)
  /-- `env->NewGlobalRef(obj)` giving `ref` -/
  | newGlobalRef (ref : JObject)
  /-- `JSObjectSetProperty(ctx, global, key, value, kJSPropertyAttributeNone, nullptr)` -/
  | setProperty (key : JSStr) (value : JSValue)
  deriving DecidableEq

/-- An error-priority log entry. -/
def Event.isErrorLog : Event → Bool
  | .log .error _ _ => true
  | _ => false

/-- A method lookup. -/
def Event.isLookup : Event → Bool
  | .getMethodID _ _ => true
  | _ => false

/-- A host method invocation. -/
def Event.isCall : Event → Bool
  | .callMethod _ _ _ => true
  | _ => false

/-- A string coercion by the engine. -/
def Event.isCoercion : Event → Bool
  | .toStringCopy _ => true
  | _ => false

/-- The host invocations of a trace, in order: receiver, method, arguments. -/
def invocations : List Event → List (JObject × JMethodID × List JString)
  | [] => []
  | .callMethod recv mid args :: t => (recv, mid, args) :: invocations t
  | _ :: t => invocations t

/-! ## The bridge -/

/-- JNI signature `(Ljava/lang/String;)Ljava/lang/String;`. -/
def sigStringString : String := "(Ljava/lang/String;)Ljava/lang/String;"

/-- JNI signature `(Ljava/lang/String;)V`. -/
def sigStringVoid : String := "(Ljava/lang/String;)V"

/-- JNI signature `(Ljava/lang/String;Ljava/lang/String;)Ljava/lang/String;`. -/
def sigString2String : String := "(Ljava/lang/String;Ljava/lang/String;)Ljava/lang/String;"

/-- JNI signature `(Ljava/lang/String;Ljava/lang/String;)V`. -/
def sigString2Void : String := "(Ljava/lang/String;Ljava/lang/String;)V"

/-- `jsValueToString(ctx, value)`: the `std::string` returned, and the steps taken. -/
def jsValueToString (E : Engine) (value : JSValueRef) : Bytes × List Event :=
  match value with
  | none => (stdString (cLiteral ""), [])
  | some v =>
    match E.JSValueToStringCopy v with
    | none => (stdString (cLiteral ""), [Event.toStringCopy v])
    | some jsStr => (stdString (JSStringGetUTF8CString jsStr), [Event.toStringCopy v])

/-- What `nativeCallback` leaves behind: the value returned to the script, the content of
the `exception` slot, and the steps taken. -/
structure CallbackReturn where
  value : JSValue
  exception : JSValueRef
  trace : List Event
  deriving DecidableEq

/-- The host string handed back through `GetStringUTFChars`,
`JSStringCreateWithUTF8CString` and `JSValueMakeString` (lines 72-80 and 110-118). -/
def returnOfHost (jres : Option JString) : JSValue :=
  match jres with
  | some s => JSValueMakeString (JSStringCreateWithUTF8CString (GetStringUTFChars s))
  | none => JSValueMakeUndefined

/-- `nativeCallback(ctx, function, thisObject, argumentCount, arguments, exception)`.
`argumentCount` is the length of `arguments`; `exception` is the content of the slot the
pointer designates. -/
def nativeCallback (E : Engine) (J : JVM) (function : JSObject) (arguments : List JSValueRef)
    (exception : JSValueRef) : CallbackReturn :=
  match JSObjectGetPrivate function with
  | none =>
    ⟨JSValueMakeUndefined, exception,
      [Event.log .error "nativeCallback: No javaCallback private data" []]⟩
  | some javaCallback =>
    let cls := J.GetObjectClass javaCallback
    let t0 := [Event.getEnv, Event.getObjectClass javaCallback,
      Event.log .info "nativeCallback: argumentCount=%zu" [.num arguments.length]]
    match arguments with
    | [] =>
      -- argumentCount == 0
      let t1 := t0 ++ [Event.getMethodID "call" "()V"]
      match GetMethodID cls "call" "()V" with
      | some mid =>
        ⟨JSValueMakeUndefined, exception, t1 ++ [Event.callMethod javaCallback mid []]⟩
      | none => ⟨JSValueMakeUndefined, exception, t1⟩
    | [a0] =>
      -- argumentCount == 1
      let t1 := t0 ++ [Event.getMethodID "callString" sigStringString]
      match GetMethodID cls "callString" sigStringString with
      | some mid =>
        let arg0 := jsValueToString E a0
        let jarg0 := NewStringUTF (c_str arg0.1)
        let jres := CallMethod cls mid [jarg0]
        ⟨returnOfHost jres, exception,
          t1 ++ arg0.2
            ++ [Event.log .info "nativeCallback: calling callString(String) -> String with '%s'"
                  [.str (cRead (c_str arg0.1))],
                Event.callMethod javaCallback mid [jarg0]]⟩
      | none =>
        let t2 := t1 ++ [Event.getMethodID "call" sigStringVoid]
        match GetMethodID cls "call" sigStringVoid with
        | some mid =>
          let arg0 := jsValueToString E a0
          let jarg0 := NewStringUTF (c_str arg0.1)
          ⟨JSValueMakeUndefined, exception,
            t2 ++ arg0.2
              ++ [Event.log .info "nativeCallback: calling call(String) with '%s'"
                    [.str (cRead (c_str arg0.1))],
                  Event.callMethod javaCallback mid [jarg0]]⟩
        | none =>
          ⟨JSValueMakeUndefined, exception,
            t2 ++ [Event.log .error
              "nativeCallback: Could not find callString(String) or call(String) method" []]⟩
    | [a0, a1] =>
      -- argumentCount == 2
      let t1 := t0 ++ [Event.getMethodID "callString" sigString2String]
      match GetMethodID cls "callString" sigString2String with
      | some mid =>
        let arg0 := jsValueToString E a0
        let arg1 := jsValueToString E a1
        let jarg0 := NewStringUTF (c_str arg0.1)
        let jarg1 := NewStringUTF (c_str arg1.1)
        let jres := CallMethod cls mid [jarg0, jarg1]
        ⟨returnOfHost jres, exception,
          t1 ++ arg0.2 ++ arg1.2
            ++ [Event.log .info
                  "nativeCallback: calling callString(String, String) with '%s', '%s'"
                  [.str (cRead (c_str arg0.1)), .str (cRead (c_str arg1.1))],
                Event.callMethod javaCallback mid [jarg0, jarg1]]⟩
      | none =>
        let t2 := t1 ++ [Event.getMethodID "call" sigString2Void]
        match GetMethodID cls "call" sigString2Void with
        | some mid =>
          let arg0 := jsValueToString E a0
          let arg1 := jsValueToString E a1
          let jarg0 := NewStringUTF (c_str arg0.1)
          let jarg1 := NewStringUTF (c_str arg1.1)
          ⟨JSValueMakeUndefined, exception,
            t2 ++ arg0.2 ++ arg1.2
              ++ [Event.log .info "nativeCallback: calling call(String, String) with '%s', '%s'"
                    [.str (cRead (c_str arg0.1)), .str (cRead (c_str arg1.1))],
                  Event.callMethod javaCallback mid [jarg0, jarg1]]⟩
        | none => ⟨JSValueMakeUndefined, exception, t2⟩
    | _ :: _ :: _ :: _ =>
      -- argumentCount > 2: no branch is taken
      ⟨JSValueMakeUndefined, exception, t0⟩

/-- Lines 160 and 163: `codeStr`, the script text handed to the engine; `code` is the
UTF form of `script`, or the literal `""` for a null `script`. -/
def codeStrOf (script : Option JString) : JSStr :=
  let code := match script with
    | some s => GetStringUTFChars s
    | none => cLiteral ""
  JSStringCreateWithUTF8CString code

/-- Lines 161 and 164: `srcStr`, the source label handed to the engine; `src` is the UTF
form of `sourceURL`, or the literal `"script.js"` for a null `sourceURL`. -/
def srcStrOf (sourceURL : Option JString) : JSStr :=
  let src := match sourceURL with
    | some s => GetStringUTFChars s
    | none => cLiteral "script.js"
  JSStringCreateWithUTF8CString src

/-- What `evaluateScript` hands to the host: the returned string and the steps taken. -/
structure EvaluateReturn where
  value : JString
  trace : List Event
  deriving DecidableEq

/-- The JNI entry point of `JSContext.evaluateScript(script, sourceURL)`.
`nativeContext` is the field of `thiz` (null when 0). The result is `none` where the
source passes a null `JSStringRef` on to `JSStringGetMaximumUTF8CStringSize`, which the
engine's interface leaves undefined. -/
def Java_com_clevertree_jscbridge_JSContext_evaluateScript (E : Engine)
    (nativeContext : Option JSGlobalContext) (script sourceURL : Option JString) :
    Option EvaluateReturn :=
  match nativeContext with
  | none =>
    some ⟨NewStringUTF (cLiteral ""), [Event.log .error "No JSGlobalContextRef available" []]⟩
  | some ctx =>
    let codeStr := codeStrOf script
    let srcStr := srcStrOf sourceURL
    let out := E.JSEvaluateScript ctx codeStr srcStr
    let t0 := [Event.evaluate codeStr srcStr]
    match out.exception with
    | some exception =>
      match E.JSValueToStringCopy exception with
      | none => none
      | some exStr =>
        let exMsg := JSStringGetUTF8CString exStr
        some ⟨NewStringUTF exMsg,
          t0 ++ [Event.toStringCopy exception,
            Event.log .error "JS exception: %s" [.str (cRead exMsg)]]⟩
    | none =>
      match out.result with
      | some result =>
        match E.JSValueToStringCopy result with
        | none => none
        | some resStr =>
          let out := JSStringGetUTF8CString resStr
          some ⟨NewStringUTF out, t0 ++ [Event.toStringCopy result]⟩
      | none => some ⟨NewStringUTF (cLiteral ""), t0⟩

/-- The state `setObjectForKey` acts on: the context behind `thiz.nativeContext` (null
when 0) and the JNI global references made so far (none is ever deleted). -/
structure BridgeState where
  nativeContext : Option JSGlobalContext
  globalRefs : List JObject
  deriving DecidableEq

/-- `env->NewGlobalRef(obj)`: null for a null `obj`, otherwise a reference not handed out
before, to the same host object. -/
def NewGlobalRef (globalRefs : List JObject) (obj : Option JObject) : Option JObject :=
  match obj with
  | none => none
  | some o => some ⟨globalRefs.length, o.obj⟩

/-- `JSObjectMake(ctx, callbackClass, data)`: an object of the callback class (whose
`callAsFunction` is `nativeCallback`) with `data` in its private slot. -/
def JSObjectMake (data : Option JObject) : JSObject := ⟨data⟩

/-- `JSObjectSetProperty(ctx, JSContextGetGlobalObject(ctx), key, value,
kJSPropertyAttributeNone, nullptr)`: a put without attributes. When the global object
accepts it, the property `key` holds `value` afterwards and is writable; otherwise
nothing changes, and with a null exception pointer nothing is reported. -/
def JSObjectSetProperty (ctx : JSGlobalContext) (key : JSStr) (value : JSValue) :
    JSGlobalContext :=
  if ctx.acceptsPut key then ⟨(key, ⟨value, true⟩) :: ctx.globalObject, ctx.extensible⟩
  else ctx

/-- `JSObjectGetProperty(ctx, JSContextGetGlobalObject(ctx), key, ...)`: the value the
property `key` of the global object holds, if any. -/
def JSObjectGetProperty (ctx : JSGlobalContext) (key : JSStr) : Option JSValue :=
  (ctx.globalObject.lookup key).map (fun p => p.value)

/-- The JNI entry point of `JSContext.setObjectForKey(keyStr, callback)`: the state
afterwards and the steps taken. `keyStr` is a string (the source hands it to
`GetStringUTFChars` unchecked); `callback` may be null. -/
def Java_com_clevertree_jscbridge_JSContext_setObjectForKey (st : BridgeState)
    (keyStr : JString) (callback : Option JObject) : BridgeState × List Event :=
  match st.nativeContext with
  | none =>
    (st, [Event.log .error "No JSGlobalContextRef available for setObjectForKey" []])
  | some ctx =>
    let keyC := GetStringUTFChars keyStr
    let jsKey := JSStringCreateWithUTF8CString keyC
    let globalCallback := NewGlobalRef st.globalRefs callback
    let func := JSObjectMake globalCallback
    let ctx1 := JSObjectSetProperty ctx jsKey (JSValue.object func)
    (⟨some ctx1, st.globalRefs ++ globalCallback.toList⟩,
      globalCallback.toList.map Event.newGlobalRef
        ++ [Event.setProperty jsKey (JSValue.object func),
            Event.log .info "setObjectForKey bound key: %s" [.str (cRead keyC)]])

/-- The string `evaluateScript` returns to the host, when it returns. -/
def returned (r : Option EvaluateReturn) : Option JString :=
  r.map (fun x => x.value)

/-- The state after `setObjectForKey(name, a)` followed by `setObjectForKey(name, b)`. -/
def bindTwice (st : BridgeState) (name : JString) (a b : JObject) : BridgeState :=
  (Java_com_clevertree_jscbridge_JSContext_setObjectForKey
    (Java_com_clevertree_jscbridge_JSContext_setObjectForKey st name (some a)).1
    name (some b)).1

/-- A script call of the global `name` as a function: the engine reads the property and,
for an object of the callback class, runs its `callAsFunction`, which is `nativeCallback`
(line 219). `none` when the property holds no such object. -/
def callGlobal (E : Engine) (J : JVM) (ctx : JSGlobalContext) (name : JSStr)
    (arguments : List JSValueRef) (exception : JSValueRef) : Option CallbackReturn :=
  match JSObjectGetProperty ctx name with
  | some (JSValue.object function) => some (nativeCallback E J function arguments exception)
  | _ => none

/-- The host string built from one script argument (lines 66-68, 87-89, 101-105,
125-129): `jsValueToString`, then `NewStringUTF` of its `c_str()`. -/
def marshalArgument (E : Engine) (value : JSValueRef) : JString :=
  NewStringUTF (c_str (jsValueToString E value).1)

/-! ## The preference table of the specification -/

/-- The overload the specification's table (section 4.3) selects for `n` arguments, in
its words: for `n = 0` the zero-argument void method if present; for `n = 1` or `n = 2`
the string-returning method of `n` string parameters if present, otherwise the void
method of `n` string parameters if present; in every other case none. `has` tells which
methods the host callback implements. -/
def preferredOverload (has : String → String → Bool) (n : Nat) : Option JMethodID :=
  if n = 0 then
    if has "call" "()V" then some ⟨"call", "()V"⟩ else none
  else if n = 1 then
    if has "callString" sigStringString then some ⟨"callString", sigStringString⟩
    else if has "call" sigStringVoid then some ⟨"call", sigStringVoid⟩
    else none
  else if n = 2 then
    if has "callString" sigString2String then some ⟨"callString", sigString2String⟩
    else if has "call" sigString2Void then some ⟨"call", sigString2Void⟩
    else none
  else none

/-! ## Sample engine and host classes, used at concrete inputs -/

/-- String coercion of the sample engine: a string is its own text and the undefined
value is `undefined`. -/
def sampleToString : JSValue → Option JSStr
  | .undefined => some (utf16 "undefined")
  | .string s => some s
  | .object _ => some (utf16 "[object CallbackObject]")
  | .other _ => some (utf16 "[object Object]")

/-- An engine whose evaluation of the script at hand has the outcome `out`. -/
def fixedEngine (out : EvalOutcome) : Engine :=
  ⟨sampleToString, fun _ _ _ => out⟩

/-- An engine that knows three scripts: `1+1` completes with the number two (the value
`other 2`, whose string form is `2`), the empty script completes with the undefined value,
and every other script is a syntax error (the exception value `other 1`). -/
def sampleEngine : Engine where
  JSValueToStringCopy := fun v =>
    match v with
    | .other 2 => some (utf16 "2")
    | .other 1 => some (utf16 "SyntaxError: Unexpected identifier")
    | v => sampleToString v
  JSEvaluateScript := fun _ code _ =>
    if code = (utf16 "1+1") then ⟨some (.other 2), none⟩
    else if code = [] then ⟨some .undefined, none⟩
    else ⟨none, some (.other 1)⟩

/-- An engine that runs the script at hand as one call of the global `name` with
`arguments`: the script completes with what `nativeCallback` returns, or with an error
value when `name` holds no callable. -/
def callingEngine (J : JVM) (name : JSStr) (arguments : List JSValueRef) : Engine :=
  ⟨sampleToString, fun ctx _ _ =>
    match callGlobal (fixedEngine ⟨none, none⟩) J ctx name arguments none with
    | some r => ⟨some r.value, r.exception⟩
    | none => ⟨none, some (.other 1)⟩⟩

/-- The global object of a new context, as far as the examples need it: extensible, with
the read-only properties `undefined`, `NaN` and `Infinity` (the two numbers stand as
`other 0` and `other 1`). -/
def freshContext : JSGlobalContext :=
  ⟨[(utf16 "undefined", ⟨.undefined, false⟩), (utf16 "NaN", ⟨.other 0, false⟩),
    (utf16 "Infinity", ⟨.other 1, false⟩)], true⟩

/-- A host runtime in which every object is of class `cls`. -/
def oneClassJVM (cls : JClass) : JVM := ⟨fun _ => cls⟩

/-- A host class implementing only `callString(String)`, which reverses its input. -/
def reverserClass : JClass :=
  ⟨[⟨"callString", sigStringString, fun args => some (args.headD []).reverse⟩]⟩

/-- A host class implementing only `callString(String)`, which returns `s` (or null). -/
def constantClass (s : Option JString) : JClass :=
  ⟨[⟨"callString", sigStringString, fun _ => s⟩]⟩

/-- A host class implementing only `call(String)`. -/
def loggerClass : JClass :=
  ⟨[⟨"call", sigStringVoid, fun _ => none⟩]⟩

/-- A host class implementing all five methods; the string overloads return `both`. -/
def fullClass : JClass :=
  ⟨[⟨"call", "()V", fun _ => none⟩,
    ⟨"call", sigStringVoid, fun _ => none⟩,
    ⟨"callString", sigStringString, fun _ => some (utf16 "both")⟩,
    ⟨"call", sigString2Void, fun _ => none⟩,
    ⟨"callString", sigString2String, fun _ => some (utf16 "both")⟩]⟩

/-- A host class implementing none of the five methods. -/
def emptyClass : JClass := ⟨[]⟩

end JSCBridge

namespace JSCBridge

/-! ## Facts about the codecs -/

theorem char_valid (c : Char) : c.toNat.isValidChar := c.valid

theorem scalar_toNat (lo : Nat) (c : Char) (h : lo ≤ c.toNat) : scalar lo c.toNat = some c := by
  unfold scalar
  rw [if_pos ⟨h, char_valid c⟩, Char.ofNat_toNat]

theorem toNat_ofNat (n : Nat) (h : n.isValidChar) : (Char.ofNat n).toNat = n := by
  unfold Char.ofNat
  rw [dif_pos h]
  rfl

/-- The codecs at a few inputs: U+0000, two-, three- and four-byte forms, a surrogate
pair, an unpaired surrogate, and malformed bytes (over-long forms, the three-byte form
of a surrogate, the modified form of U+0000 read as UTF-8). -/
theorem codec_examples :
    utf8Encode ['a', Char.ofNat 0, 'b'] = [97, 0, 98]
      ∧ mutf8Encode [0x61, 0, 0x62] = [97, 0xC0, 0x80, 98]
      ∧ mutf8Encode [0x61, 0xD800, 0x62] = [97, 0xED, 0xA0, 0x80, 98]
      ∧ mutf8Encode [0xD83D, 0xDE00] = [0xF0, 0x9F, 0x98, 0x80]
      ∧ utf16 "a😀" = [0x61, 0xD83D, 0xDE00]
      ∧ scalarsOf [0x61, 0xD83D, 0xDE00, 0xD800, 0x62] = "a😀".toList
      ∧ cutAtNulOrUnpaired [0x61, 0xD83D, 0xDE00, 0xD800, 0x62] = [0x61, 0xD83D, 0xDE00]
      ∧ cutAtNulOrUnpaired [0x61, 0xDC00, 0x62] = [0x61]
      ∧ cutAtNulOrUnpaired [0x61, 0, 0x62] = [0x61]
      ∧ utf8Encode "é€😀".toList = [0xC3, 0xA9, 0xE2, 0x82, 0xAC, 0xF0, 0x9F, 0x98, 0x80]
      ∧ utf8Decode false [0xC3, 0xA9, 0xE2, 0x82, 0xAC, 0xF0, 0x9F, 0x98, 0x80]
          = some "é€😀".toList
      ∧ utf8Decode false [97, 0xC0, 0x80, 98] = none
      ∧ utf8Decode false [97, 0xC1, 0x80, 98] = none
      ∧ utf8Decode false [97, 0xE0, 0x80, 0x80, 98] = none
      ∧ utf8Decode false [97, 0xED, 0xA0, 0x80, 98] = none
      ∧ utf8Decode true [97, 0xC0, 0x81, 98] = none
      ∧ utf8Decode true [97, 0xC0, 0x80, 98] = some ['a', Char.ofNat 0, 'b']
      ∧ cRead [97, 0, 98, 0] = [97] := by
  decide

theorem decodeFrom_low (m : Bool) (b : Nat) (r : Bytes) (h : b < 0x80) :
    utf8DecodeFrom m none (b :: r)
      = (utf8DecodeFrom m none r).map (fun s => Char.ofNat b :: s) := by
  rw [utf8DecodeFrom, if_pos h]

theorem isCont_low6 (k : Nat) : isCont (0x80 + k % 0x40) = true := by
  have : k % 0x40 < 0x40 := Nat.mod_lt _ (by decide)
  simp only [isCont, Bool.and_eq_true, decide_eq_true_eq]
  omega

theorem decodeFrom_lead2 (m : Bool) (b : Nat) (r : Bytes) (h0 : 0xC0 ≤ b) (h1 : b < 0xE0) :
    utf8DecodeFrom m none (b :: r)
      = utf8DecodeFrom m (some ⟨1, b - 0xC0, 0x80, m && b == 0xC0⟩) r := by
  rw [utf8DecodeFrom, if_neg (by omega), if_neg (by omega), if_pos h1]

theorem decodeFrom_lead3 (m : Bool) (b : Nat) (r : Bytes) (h0 : 0xE0 ≤ b) (h1 : b < 0xF0) :
    utf8DecodeFrom m none (b :: r) = utf8DecodeFrom m (some ⟨2, b - 0xE0, 0x800, false⟩) r := by
  rw [utf8DecodeFrom, if_neg (by omega), if_neg (by omega), if_neg (by omega), if_pos h1]

theorem decodeFrom_lead4 (m : Bool) (b : Nat) (r : Bytes) (h0 : 0xF0 ≤ b) (h1 : b < 0xF8) :
    utf8DecodeFrom m none (b :: r)
      = utf8DecodeFrom m (some ⟨3, b - 0xF0, 0x10000, false⟩) r := by
  rw [utf8DecodeFrom, if_neg (by omega), if_neg (by omega), if_neg (by omega),
    if_neg (by omega), if_pos h1]

theorem decodeFrom_cont (m : Bool) (p : Pending) (k : Nat) (r : Bytes) (h : 1 < p.need) :
    utf8DecodeFrom m (some p) ((0x80 + k % 0x40) :: r)
      = utf8DecodeFrom m (some ⟨p.need - 1, p.acc * 0x40 + k % 0x40, p.lo, p.zero⟩) r := by
  rw [utf8DecodeFrom, if_pos (isCont_low6 k)]
  simp only []
  rw [if_neg (by omega), Nat.add_sub_cancel_left]

theorem decodeFrom_last (m : Bool) (p : Pending) (k : Nat) (r : Bytes) (c : Char)
    (h : p.need ≤ 1) (hz : p.acc * 0x40 + k % 0x40 ≠ 0)
    (hc : scalar p.lo (p.acc * 0x40 + k % 0x40) = some c) :
    utf8DecodeFrom m (some p) ((0x80 + k % 0x40) :: r)
      = (utf8DecodeFrom m none r).map (fun s => c :: s) := by
  rw [utf8DecodeFrom, if_pos (isCont_low6 k)]
  simp only []
  rw [if_pos h, Nat.add_sub_cancel_left]
  have : (p.acc * 0x40 + k % 0x40 == 0) = false := by simpa using hz
  rw [this, Bool.and_false, if_neg (by simp), hc]

theorem decodeFrom_encodeChar (m : Bool) (c : Char) (r : Bytes) :
    utf8DecodeFrom m none (utf8EncodeChar c ++ r)
      = (utf8DecodeFrom m none r).map (fun s => c :: s) := by
  have hs := fun lo h => scalar_toNat lo c h
  have ho := Char.ofNat_toNat c
  have hv := char_valid c
  unfold Nat.isValidChar at hv
  unfold utf8EncodeChar utf8EncodeNat
  generalize c.toNat = n at *
  by_cases h1 : n < 0x80
  · rw [if_pos h1, List.singleton_append, decodeFrom_low m n r h1, ho]
  · rw [if_neg h1]
    by_cases h2 : n < 0x800
    · rw [if_pos h2]
      have e : (0xC0 + n / 0x40 - 0xC0) * 0x40 + n % 0x40 = n := by omega
      simp only [List.cons_append, List.nil_append]
      rw [decodeFrom_lead2 m _ _ (by omega) (by omega),
        decodeFrom_last m _ n r c (le_refl 1) (by simp only []; omega)
          (by simp only []; rw [e]; exact hs 0x80 (by omega))]
    · rw [if_neg h2]
      by_cases h3 : n < 0x10000
      · rw [if_pos h3]
        have e : ((0xE0 + n / 0x1000 - 0xE0) * 0x40 + n / 0x40 % 0x40) * 0x40 + n % 0x40 = n := by
          omega
        simp only [List.cons_append, List.nil_append]
        rw [decodeFrom_lead3 m _ _ (by omega) (by omega),
          decodeFrom_cont m _ (n / 0x40) _ (by simp only []; omega),
          decodeFrom_last m _ n r c (by simp only []; omega) (by simp only []; omega)
            (by simp only []; rw [e]; exact hs 0x800 (by omega))]
      · rw [if_neg h3]
        have e : (((0xF0 + n / 0x40000 - 0xF0) * 0x40 + n / 0x1000 % 0x40) * 0x40
            + n / 0x40 % 0x40) * 0x40 + n % 0x40 = n := by omega
        simp only [List.cons_append, List.nil_append]
        rw [decodeFrom_lead4 m _ _ (by omega) (by omega),
          decodeFrom_cont m _ (n / 0x1000) _ (by simp only []; omega),
          decodeFrom_cont m _ (n / 0x40) _ (by simp only []; omega),
          decodeFrom_last m _ n r c (by simp only []; omega) (by simp only []; omega)
            (by simp only []; rw [e]; exact hs 0x10000 (by omega))]

theorem utf8Decode_utf8Encode (m : Bool) (s : List Char) :
    utf8Decode m (utf8Encode s) = some s := by
  unfold utf8Decode
  induction s with
  | nil => rfl
  | cons c s ih => rw [utf8Encode, decodeFrom_encodeChar, ih]; rfl

/-! ## Facts about C strings -/

theorem cRead_append_zero (bs rest : Bytes) (h : ∀ b ∈ bs, b ≠ 0) :
    cRead (bs ++ 0 :: rest) = bs := by
  unfold cRead
  induction bs with
  | nil => simp
  | cons b bs ih =>
    have hb : b ≠ 0 := h b (List.mem_cons_self _ _)
    have hr := ih (fun x hx => h x (List.mem_cons_of_mem _ hx))
    simp [List.takeWhile_cons, hb, hr]

theorem utf8EncodeNat_zero : utf8EncodeNat 0 = [0] := by
  decide

theorem utf8EncodeNat_ne_zero (n : Nat) (h : n ≠ 0) : ∀ b ∈ utf8EncodeNat n, b ≠ 0 := by
  unfold utf8EncodeNat
  intro b hb
  split at hb
  · simp only [List.mem_singleton] at hb; omega
  · split at hb
    · simp only [List.mem_cons, List.mem_singleton, List.not_mem_nil, or_false] at hb; omega
    · split at hb
      · simp only [List.mem_cons, List.mem_singleton, List.not_mem_nil, or_false] at hb; omega
      · simp only [List.mem_cons, List.mem_singleton, List.not_mem_nil, or_false] at hb; omega

theorem utf8Encode_ne_zero (s : List Char) (h : ∀ c ∈ s, c.toNat ≠ 0) :
    ∀ b ∈ utf8Encode s, b ≠ 0 := by
  induction s with
  | nil => intro b hb; simp [utf8Encode] at hb
  | cons c s ih =>
    intro b hb
    rw [utf8Encode, List.mem_append] at hb
    rcases hb with hb | hb
    · exact utf8EncodeNat_ne_zero c.toNat (h c (List.mem_cons_self _ _)) b hb
    · exact ih (fun x hx => h x (List.mem_cons_of_mem _ hx)) b hb

theorem cutAtNul_ne_zero (s : List Char) : ∀ c ∈ cutAtNul s, c.toNat ≠ 0 := by
  intro c hc
  have := List.mem_takeWhile_imp hc
  simpa using this

theorem cutAtNul_of_ne_zero (s : List Char) (h : ∀ c ∈ s, c.toNat ≠ 0) : cutAtNul s = s := by
  unfold cutAtNul
  rw [List.takeWhile_eq_self_iff]
  intro c hc
  simpa using h c hc

theorem cutAtNul_cons_zero (c : Char) (s : List Char) (h : c.toNat = 0) :
    cutAtNul (c :: s) = [] := by
  simp [cutAtNul, List.takeWhile_cons, h]

theorem cutAtNul_cons_ne_zero (c : Char) (s : List Char) (h : c.toNat ≠ 0) :
    cutAtNul (c :: s) = c :: cutAtNul s := by
  simp [cutAtNul, List.takeWhile_cons, h]

/-- Reading a UTF-8 buffer as a C string gives the UTF-8 form of the text before the
first U+0000. -/
theorem cRead_utf8Encode (s : List Char) (rest : Bytes) :
    cRead (utf8Encode s ++ 0 :: rest) = utf8Encode (cutAtNul s) := by
  induction s with
  | nil => simp [utf8Encode, cutAtNul, cRead]
  | cons c s ih =>
    by_cases hc : c.toNat = 0
    · rw [cutAtNul_cons_zero c s hc]
      simp only [utf8Encode, utf8EncodeChar]
      rw [hc, utf8EncodeNat_zero]
      simp [cRead]
    · rw [cutAtNul_cons_ne_zero c s hc, utf8Encode, utf8Encode, List.append_assoc]
      have hz := utf8EncodeNat_ne_zero c.toNat hc
      unfold utf8EncodeChar
      generalize utf8EncodeNat c.toNat = bs at hz
      rw [← ih]
      unfold cRead
      induction bs with
      | nil => rfl
      | cons b bs ihb =>
        have hb : b ≠ 0 := hz b (List.mem_cons_self _ _)
        simp only [List.cons_append, List.takeWhile_cons, bne_iff_ne, ne_eq, hb,
          not_false_eq_true, decide_True, ite_true]
        rw [ihb (fun x hx => hz x (List.mem_cons_of_mem _ hx))]

/-! ## Facts about UTF-16 -/

theorem unit_val (u : CodeUnit) : unit u.val = u := by
  apply Fin.ext
  simp only [unit]
  exact Nat.mod_eq_of_lt u.isLt

theorem unit_of_lt (n : Nat) (h : n < 0x10000) : (unit n).val = n := by
  simp only [unit]
  exact Nat.mod_eq_of_lt h

theorem scalarsOf_cons (u : CodeUnit) (s : List CodeUnit) :
    scalarsOf (u :: s) =
      if isHigh u then
        match s with
        | v :: rest => if isLow v then Char.ofNat (pairValue u v) :: scalarsOf rest else []
        | [] => []
      else if isLow u then []
      else Char.ofNat u.val :: scalarsOf s := by
  cases s <;> simp only [scalarsOf]

theorem wellFormed_cons (u : CodeUnit) (s : List CodeUnit) :
    wellFormed (u :: s) =
      if isHigh u then
        match s with
        | v :: rest => isLow v && wellFormed rest
        | [] => false
      else !isLow u && wellFormed s := by
  cases s <;> simp only [wellFormed]

theorem cutAtNulOrUnpaired_cons (u : CodeUnit) (s : List CodeUnit) :
    cutAtNulOrUnpaired (u :: s) =
      if u.val = 0 then []
      else if isHigh u then
        match s with
        | v :: rest => if isLow v then u :: v :: cutAtNulOrUnpaired rest else []
        | [] => []
      else if isLow u then []
      else u :: cutAtNulOrUnpaired s := by
  cases s <;> simp only [cutAtNulOrUnpaired]

theorem mutf8Encode_cons (u : CodeUnit) (s : List CodeUnit) :
    mutf8Encode (u :: s) =
      if isHigh u then
        match s with
        | v :: rest =>
          if isLow v then utf8EncodeNat (pairValue u v) ++ mutf8Encode rest
          else mutf8Unit u ++ mutf8Encode (v :: rest)
        | [] => mutf8Unit u
      else mutf8Unit u ++ mutf8Encode s := by
  cases s <;> simp [mutf8Encode]

/-- Induction over code units that also gives the statement for the string after the
next unit, as the functions that read surrogate pairs need it. -/
theorem units_induction {P : List CodeUnit → Prop} (h0 : P [])
    (h1 : ∀ u s, P s → (∀ v rest, s = v :: rest → P rest) → P (u :: s)) : ∀ s, P s := by
  have key : ∀ s, P s ∧ (∀ v rest, s = v :: rest → P rest) := by
    intro s
    induction s with
    | nil => exact ⟨h0, fun v rest h => by cases h⟩
    | cons u s ih =>
      refine ⟨h1 u s ih.1 ih.2, fun v rest h => ?_⟩
      cases h
      exact ih.1
  exact fun s => (key s).1

theorem bmp_valid (u : CodeUnit) (hh : isHigh u = false) (hl : isLow u = false) :
    u.val.isValidChar := by
  have := u.isLt
  simp only [isHigh, isLow, Bool.and_eq_false_iff, decide_eq_false_iff_not] at hh hl
  unfold Nat.isValidChar
  omega

theorem pair_valid (u v : CodeUnit) (hh : isHigh u = true) (hl : isLow v = true) :
    (pairValue u v).isValidChar ∧ 0x10000 ≤ pairValue u v := by
  simp only [isHigh, isLow, Bool.and_eq_true, decide_eq_true_eq] at hh hl
  unfold Nat.isValidChar pairValue
  omega

theorem utf16EncodeChar_bmp (u : CodeUnit) (hh : isHigh u = false) (hl : isLow u = false) :
    utf16EncodeChar (Char.ofNat u.val) = [u] := by
  unfold utf16EncodeChar
  rw [toNat_ofNat _ (bmp_valid u hh hl), if_pos u.isLt, unit_val]

theorem utf16EncodeChar_pair (u v : CodeUnit) (hh : isHigh u = true) (hl : isLow v = true) :
    utf16EncodeChar (Char.ofNat (pairValue u v)) = [u, v] := by
  have hp := pair_valid u v hh hl
  unfold utf16EncodeChar
  rw [toNat_ofNat _ hp.1, if_neg (by omega)]
  simp only [isHigh, isLow, Bool.and_eq_true, decide_eq_true_eq] at hh hl
  have e1 : 0xD800 + (pairValue u v - 0x10000) / 0x400 = u.val := by
    unfold pairValue; omega
  have e2 : 0xDC00 + (pairValue u v - 0x10000) % 0x400 = v.val := by
    unfold pairValue; omega
  rw [e1, e2, unit_val, unit_val]

theorem surrogate_ne_zero (u : CodeUnit) (h : isHigh u = true ∨ isLow u = true) :
    u.val ≠ 0 := by
  simp only [isHigh, isLow, Bool.and_eq_true, decide_eq_true_eq] at h
  omega

/-- What crosses from the script side to the host side, on scalar values and on code
units: the text before the first U+0000 or unpaired surrogate. -/
theorem utf16Encode_cutAtNul_scalarsOf (s : List CodeUnit) :
    utf16Encode (cutAtNul (scalarsOf s)) = cutAtNulOrUnpaired s := by
  refine units_induction (P := fun s => utf16Encode (cutAtNul (scalarsOf s))
    = cutAtNulOrUnpaired s) ?_ ?_ s
  · rfl
  · intro u s ih ih2
    rw [scalarsOf_cons, cutAtNulOrUnpaired_cons]
    by_cases h0 : u.val = 0
    · have hh : isHigh u = false := by simp [isHigh, h0]
      have hl : isLow u = false := by simp [isLow, h0]
      rw [if_pos h0, hh, hl]
      simp only [Bool.false_eq_true, if_false]
      rw [cutAtNul_cons_zero _ _ (by rw [toNat_ofNat _ (bmp_valid u hh hl)]; exact h0)]
      rfl
    · rw [if_neg h0]
      cases hh : isHigh u
      · cases hl : isLow u
        · simp only [Bool.false_eq_true, if_false]
          rw [cutAtNul_cons_ne_zero _ _
            (by rw [toNat_ofNat _ (bmp_valid u hh hl)]; exact h0), utf16Encode,
            utf16EncodeChar_bmp u hh hl, ih]
          rfl
        · simp only [Bool.false_eq_true, if_false, if_true]
          rfl
      · simp only [if_true]
        cases s with
        | nil => rfl
        | cons v rest =>
          cases hl : isLow v
          · simp only [hl, Bool.false_eq_true, if_false]
            rfl
          · simp only [hl, if_true]
            have hp := pair_valid u v hh hl
            rw [cutAtNul_cons_ne_zero _ _ (by rw [toNat_ofNat _ hp.1]; omega), utf16Encode,
              utf16EncodeChar_pair u v hh hl, ih2 v rest rfl]
            rfl

theorem cutAtNulOrUnpaired_of_clean (s : List CodeUnit) :
    (∀ u ∈ s, u.val ≠ 0) → wellFormed s = true → cutAtNulOrUnpaired s = s := by
  refine units_induction (P := fun s => (∀ u ∈ s, u.val ≠ 0) → wellFormed s = true →
    cutAtNulOrUnpaired s = s) ?_ ?_ s
  · intro _ _
    rfl
  · intro u s ih ih2 h0 hw
    have hu0 : u.val ≠ 0 := h0 u (List.mem_cons_self _ _)
    have hs0 : ∀ x ∈ s, x.val ≠ 0 := fun x hx => h0 x (List.mem_cons_of_mem _ hx)
    rw [wellFormed_cons] at hw
    rw [cutAtNulOrUnpaired_cons, if_neg hu0]
    cases hh : isHigh u
    · rw [hh] at hw
      simp only [Bool.false_eq_true, if_false, Bool.and_eq_true, Bool.not_eq_true'] at hw
      simp only [Bool.false_eq_true, if_false, hw.1]
      rw [ih hs0 hw.2]
    · rw [hh] at hw
      simp only [if_true] at hw ⊢
      cases s with
      | nil => simp at hw
      | cons v rest =>
        simp only [Bool.and_eq_true] at hw
        simp only [hw.1, if_true]
        rw [ih2 v rest rfl (fun x hx => hs0 x (List.mem_cons_of_mem _ hx)) hw.2]

/-- A string without U+0000 and without unpaired surrogate is the UTF-16 form of its
scalar values, none of which is U+0000. -/
theorem scalarsOf_of_clean (s : List CodeUnit) :
    (∀ u ∈ s, u.val ≠ 0) → wellFormed s = true →
      utf16Encode (scalarsOf s) = s ∧ ∀ c ∈ scalarsOf s, c.toNat ≠ 0 := by
  refine units_induction (P := fun s => (∀ u ∈ s, u.val ≠ 0) → wellFormed s = true →
    utf16Encode (scalarsOf s) = s ∧ ∀ c ∈ scalarsOf s, c.toNat ≠ 0) ?_ ?_ s
  · intro _ _
    exact ⟨rfl, fun c hc => by simp [scalarsOf] at hc⟩
  · intro u s ih ih2 h0 hw
    have hu0 : u.val ≠ 0 := h0 u (List.mem_cons_self _ _)
    have hs0 : ∀ x ∈ s, x.val ≠ 0 := fun x hx => h0 x (List.mem_cons_of_mem _ hx)
    rw [wellFormed_cons] at hw
    rw [scalarsOf_cons]
    cases hh : isHigh u
    · rw [hh] at hw
      simp only [Bool.false_eq_true, if_false, Bool.and_eq_true, Bool.not_eq_true'] at hw
      simp only [Bool.false_eq_true, if_false, hw.1]
      have r := ih hs0 hw.2
      refine ⟨by rw [utf16Encode, utf16EncodeChar_bmp u hh hw.1, r.1]; rfl, ?_⟩
      intro c hc
      rcases List.mem_cons.mp hc with e | hm
      · rw [e, toNat_ofNat _ (bmp_valid u hh hw.1)]
        exact hu0
      · exact r.2 c hm
    · rw [hh] at hw
      simp only [if_true] at hw ⊢
      cases s with
      | nil => simp at hw
      | cons v rest =>
        simp only [Bool.and_eq_true] at hw
        simp only [hw.1, if_true]
        have r := ih2 v rest rfl (fun x hx => hs0 x (List.mem_cons_of_mem _ hx)) hw.2
        have hp := pair_valid u v hh hw.1
        refine ⟨by rw [utf16Encode, utf16EncodeChar_pair u v hh hw.1, r.1]; rfl, ?_⟩
        intro c hc
        rcases List.mem_cons.mp hc with e | hm
        · rw [e, toNat_ofNat _ hp.1]
          omega
        · exact r.2 c hm

theorem mutf8Unit_ne_zero (u : CodeUnit) : ∀ b ∈ mutf8Unit u, b ≠ 0 := by
  unfold mutf8Unit
  intro b hb
  split at hb
  · simp only [List.mem_cons, List.mem_singleton, List.not_mem_nil, or_false] at hb; omega
  · rename_i h
    exact utf8EncodeNat_ne_zero _ h b hb

theorem mutf8Encode_ne_zero (s : List CodeUnit) : ∀ b ∈ mutf8Encode s, b ≠ 0 := by
  refine units_induction (P := fun s => ∀ b ∈ mutf8Encode s, b ≠ 0) ?_ ?_ s
  · intro b hb
    simp [mutf8Encode] at hb
  · intro u s ih ih2 b hb
    rw [mutf8Encode_cons] at hb
    cases hh : isHigh u
    · rw [hh] at hb
      simp only [Bool.false_eq_true, if_false, List.mem_append] at hb
      rcases hb with hb | hb
      · exact mutf8Unit_ne_zero u b hb
      · exact ih b hb
    · rw [hh] at hb
      simp only [if_true] at hb
      cases s with
      | nil => exact mutf8Unit_ne_zero u b hb
      | cons v rest =>
        simp only [] at hb
        cases hl : isLow v
        · rw [hl] at hb
          simp only [Bool.false_eq_true, if_false, List.mem_append] at hb
          rcases hb with hb | hb
          · exact mutf8Unit_ne_zero u b hb
          · exact ih b hb
        · rw [hl] at hb
          simp only [if_true, List.mem_append] at hb
          rcases hb with hb | hb
          · have hp := pair_valid u v hh hl
            exact utf8EncodeNat_ne_zero _ (by omega) b hb
          · exact ih2 v rest rfl b hb

/-- On a string without U+0000 and without unpaired surrogate the modified UTF-8 form is
the UTF-8 form of its scalar values. -/
theorem mutf8Encode_of_clean (s : List CodeUnit) :
    (∀ u ∈ s, u.val ≠ 0) → wellFormed s = true →
      mutf8Encode s = utf8Encode (scalarsOf s) := by
  refine units_induction (P := fun s => (∀ u ∈ s, u.val ≠ 0) → wellFormed s = true →
    mutf8Encode s = utf8Encode (scalarsOf s)) ?_ ?_ s
  · intro _ _
    rfl
  · intro u s ih ih2 h0 hw
    have hu0 : u.val ≠ 0 := h0 u (List.mem_cons_self _ _)
    have hs0 : ∀ x ∈ s, x.val ≠ 0 := fun x hx => h0 x (List.mem_cons_of_mem _ hx)
    rw [wellFormed_cons] at hw
    rw [scalarsOf_cons, mutf8Encode_cons]
    cases hh : isHigh u
    · rw [hh] at hw
      simp only [Bool.false_eq_true, if_false, Bool.and_eq_true, Bool.not_eq_true'] at hw
      simp only [Bool.false_eq_true, if_false, hw.1]
      rw [utf8Encode, ih hs0 hw.2, utf8EncodeChar, toNat_ofNat _ (bmp_valid u hh hw.1),
        mutf8Unit, if_neg hu0]
    · rw [hh] at hw
      simp only [if_true] at hw ⊢
      cases s with
      | nil => simp at hw
      | cons v rest =>
        simp only [Bool.and_eq_true] at hw
        simp only [hw.1, if_true]
        have hp := pair_valid u v hh hw.1
        rw [utf8Encode, utf8EncodeChar, toNat_ofNat _ hp.1,
          ih2 v rest rfl (fun x hx => hs0 x (List.mem_cons_of_mem _ hx)) hw.2]

/-! ## Facts about the string conversions of the bridge -/

theorem val_ne_zero_of_not_mem (s : List CodeUnit) (h : (0 : CodeUnit) ∉ s) :
    ∀ u ∈ s, u.val ≠ 0 := by
  intro u hu h0
  have e : u = 0 := Fin.ext h0
  exact h (e ▸ hu)

/-- On a string without unpaired surrogate the cut is the one at the first U+0000. -/
theorem cutAtNulOrUnpaired_of_wellFormed (s : List CodeUnit) :
    wellFormed s = true → cutAtNulOrUnpaired s = s.takeWhile (fun u => u != 0) := by
  refine units_induction (P := fun s => wellFormed s = true →
    cutAtNulOrUnpaired s = s.takeWhile (fun u => u != 0)) ?_ ?_ s
  · intro _
    rfl
  · intro u s ih ih2 hw
    rw [wellFormed_cons] at hw
    rw [cutAtNulOrUnpaired_cons]
    by_cases h0 : u.val = 0
    · have e : u = 0 := Fin.ext h0
      rw [if_pos h0, e]
      simp
    · have hne : u ≠ 0 := fun e => h0 (by rw [e]; rfl)
      rw [if_neg h0, List.takeWhile_cons_of_pos (by simpa using hne)]
      cases hh : isHigh u
      · rw [hh] at hw
        simp only [Bool.false_eq_true, if_false, Bool.and_eq_true, Bool.not_eq_true'] at hw
        simp only [Bool.false_eq_true, if_false, hw.1]
        rw [ih hw.2]
      · rw [hh] at hw
        simp only [if_true] at hw ⊢
        cases s with
        | nil => simp at hw
        | cons v rest =>
          simp only [Bool.and_eq_true] at hw
          have hv : v ≠ 0 := fun e =>
            surrogate_ne_zero v (Or.inr hw.1) (by rw [e]; rfl)
          simp only [hw.1, if_true]
          rw [List.takeWhile_cons_of_pos (by simpa using hv), ih2 v rest rfl hw.2]

/-- A string without U+0000 and without unpaired surrogate reaches the other side of the
cut whole. -/
theorem cutAtNulOrUnpaired_eq_self (s : List CodeUnit) (h0 : (0 : CodeUnit) ∉ s)
    (hw : wellFormed s = true) : cutAtNulOrUnpaired s = s :=
  cutAtNulOrUnpaired_of_clean s (val_ne_zero_of_not_mem s h0) hw

/-- The script string to host string path of `nativeCallback` (lines 66-68): the host
receives the text before the first U+0000 or unpaired surrogate. -/
theorem NewStringUTF_stdString (s : JSStr) :
    NewStringUTF (c_str (stdString (JSStringGetUTF8CString s))) = cutAtNulOrUnpaired s := by
  unfold NewStringUTF c_str stdString JSStringGetUTF8CString
  rw [cRead_utf8Encode,
    cRead_append_zero _ _ (utf8Encode_ne_zero _ (cutAtNul_ne_zero (scalarsOf s))),
    utf8Decode_utf8Encode]
  exact utf16Encode_cutAtNul_scalarsOf s

/-- The script string to host string path of `evaluateScript` (lines 176-182, 188-193). -/
theorem NewStringUTF_JSString (s : JSStr) :
    NewStringUTF (JSStringGetUTF8CString s) = cutAtNulOrUnpaired s := by
  unfold NewStringUTF JSStringGetUTF8CString
  rw [cRead_utf8Encode, utf8Decode_utf8Encode]
  exact utf16Encode_cutAtNul_scalarsOf s

/-- The host string to script string path (lines 73-74, 160-163, 212-213) keeps a string
that has no U+0000 and no unpaired surrogate. -/
theorem JSStringCreate_GetStringUTFChars (s : JString) (hn : (0 : CodeUnit) ∉ s)
    (hw : wellFormed s = true) :
    JSStringCreateWithUTF8CString (GetStringUTFChars s) = s := by
  have h0 := val_ne_zero_of_not_mem s hn
  unfold JSStringCreateWithUTF8CString GetStringUTFChars
  rw [cRead_append_zero _ _ (mutf8Encode_ne_zero s), mutf8Encode_of_clean s h0 hw,
    utf8Decode_utf8Encode]
  exact (scalarsOf_of_clean s h0 hw).1

theorem decodeFrom_C0_80 (r : Bytes) : utf8DecodeFrom false none (0xC0 :: 0x80 :: r) = none := by
  rw [decodeFrom_lead2 false _ _ (by decide) (by decide), utf8DecodeFrom]
  simp [isCont, scalar]

theorem decodeFrom_last_none (m : Bool) (p : Pending) (k : Nat) (r : Bytes)
    (h : p.need ≤ 1) (hz : p.zero = false)
    (hc : scalar p.lo (p.acc * 0x40 + k % 0x40) = none) :
    utf8DecodeFrom m (some p) ((0x80 + k % 0x40) :: r) = none := by
  rw [utf8DecodeFrom, if_pos (isCont_low6 k)]
  simp only []
  rw [if_pos h, Nat.add_sub_cancel_left, hz, Bool.false_and, if_neg (by simp), hc]

/-- Neither UTF-8 reader takes the three-byte form of a surrogate. -/
theorem decodeFrom_surrogate (m : Bool) (u : CodeUnit)
    (h : isHigh u = true ∨ isLow u = true) (r : Bytes) :
    utf8DecodeFrom m none (utf8EncodeNat u.val ++ r) = none := by
  have hlt := u.isLt
  simp only [isHigh, isLow, Bool.and_eq_true, decide_eq_true_eq] at h
  unfold utf8EncodeNat
  generalize u.val = n at *
  rw [if_neg (by omega), if_neg (by omega), if_pos (by omega)]
  have e : ((0xE0 + n / 0x1000 - 0xE0) * 0x40 + n / 0x40 % 0x40) * 0x40 + n % 0x40 = n := by
    omega
  simp only [List.cons_append, List.nil_append]
  rw [decodeFrom_lead3 m _ _ (by omega) (by omega),
    decodeFrom_cont m _ (n / 0x40) _ (by simp only []; omega),
    decodeFrom_last_none m _ n r (by simp only []; omega) rfl
      (by
        simp only []
        rw [e]
        unfold scalar Nat.isValidChar
        rw [if_neg (by omega)])]

/-- The UTF-8 reader of the engine refuses the modified UTF-8 form of a string that holds
U+0000 or an unpaired surrogate. -/
theorem utf8Decode_mutf8Encode_bad (s : List CodeUnit) :
    ((0 : CodeUnit) ∈ s ∨ wellFormed s = false) →
      utf8DecodeFrom false none (mutf8Encode s) = none := by
  refine units_induction (P := fun s => ((0 : CodeUnit) ∈ s ∨ wellFormed s = false) →
    utf8DecodeFrom false none (mutf8Encode s) = none) ?_ ?_ s
  · intro h
    rcases h with h | h
    · simp at h
    · simp [wellFormed] at h
  · intro u s ih ih2 hbad
    rw [wellFormed_cons] at hbad
    rw [mutf8Encode_cons]
    by_cases h0 : u.val = 0
    · have hh : isHigh u = false := by simp [isHigh, h0]
      rw [hh]
      simp only [Bool.false_eq_true, if_false, mutf8Unit, h0, if_true, List.cons_append,
        List.nil_append]
      exact decodeFrom_C0_80 _
    · have hne : ¬ (0 : CodeUnit) = u := fun e => h0 (by rw [← e]; rfl)
      cases hh : isHigh u
      · rw [hh] at hbad
        simp only [Bool.false_eq_true, if_false] at hbad ⊢
        cases hl : isLow u
        · have hs : (0 : CodeUnit) ∈ s ∨ wellFormed s = false := by
            rcases hbad with h | h
            · rcases List.mem_cons.mp h with e | hm
              · exact absurd e hne
              · exact Or.inl hm
            · simp only [hl, Bool.not_false, Bool.true_and] at h
              exact Or.inr h
          have e : mutf8Unit u = utf8EncodeChar (Char.ofNat u.val) := by
            rw [mutf8Unit, if_neg h0, utf8EncodeChar, toNat_ofNat _ (bmp_valid u hh hl)]
          rw [e, decodeFrom_encodeChar, ih hs]
          rfl
        · rw [mutf8Unit, if_neg h0]
          exact decodeFrom_surrogate false u (Or.inr hl) _
      · rw [hh] at hbad
        simp only [if_true] at hbad ⊢
        cases s with
        | nil =>
          simp only []
          rw [mutf8Unit, if_neg h0]
          have := decodeFrom_surrogate false u (Or.inl hh) []
          rwa [List.append_nil] at this
        | cons v rest =>
          simp only [] at hbad ⊢
          cases hl : isLow v
          · simp only [Bool.false_eq_true, if_false]
            rw [mutf8Unit, if_neg h0]
            exact decodeFrom_surrogate false u (Or.inl hh) _
          · simp only [if_true]
            have hv : ¬ (0 : CodeUnit) = v := fun e =>
              surrogate_ne_zero v (Or.inr hl) (by rw [← e]; rfl)
            have hs : (0 : CodeUnit) ∈ rest ∨ wellFormed rest = false := by
              rcases hbad with h | h
              · rcases List.mem_cons.mp h with e | hm
                · exact absurd e hne
                · rcases List.mem_cons.mp hm with e | hm2
                  · exact absurd e hv
                  · exact Or.inl hm2
              · simp only [hl, Bool.true_and] at h
                exact Or.inr h
            have hp := pair_valid u v hh hl
            have e : utf8EncodeNat (pairValue u v)
                = utf8EncodeChar (Char.ofNat (pairValue u v)) := by
              rw [utf8EncodeChar, toNat_ofNat _ hp.1]
            rw [e, decodeFrom_encodeChar, ih2 v rest rfl hs]
            rfl

/-- The host string to script string path keeps a string exactly when it has no U+0000
and no unpaired surrogate; any other string arrives as the empty string. -/
theorem JSStringCreate_GetStringUTFChars_iff (s : JString) :
    (JSStringCreateWithUTF8CString (GetStringUTFChars s) = s
        ↔ (0 : CodeUnit) ∉ s ∧ wellFormed s = true)
      ∧ (((0 : CodeUnit) ∈ s ∨ wellFormed s = false) →
          JSStringCreateWithUTF8CString (GetStringUTFChars s) = []) := by
  have hbad : ((0 : CodeUnit) ∈ s ∨ wellFormed s = false) →
      JSStringCreateWithUTF8CString (GetStringUTFChars s) = [] := by
    intro h
    unfold JSStringCreateWithUTF8CString GetStringUTFChars
    rw [cRead_append_zero _ _ (mutf8Encode_ne_zero s), utf8Decode,
      utf8Decode_mutf8Encode_bad s h]
    rfl
  refine ⟨⟨fun h => ?_, fun h => JSStringCreate_GetStringUTFChars s h.1 h.2⟩, hbad⟩
  by_contra hn
  have hb : (0 : CodeUnit) ∈ s ∨ wellFormed s = false := by
    by_cases h0 : (0 : CodeUnit) ∈ s
    · exact Or.inl h0
    · right
      cases hw : wellFormed s
      · rfl
      · exact absurd ⟨h0, hw⟩ hn
  have he := hbad hb
  rw [h] at he
  subst he
  exact hn ⟨by simp, rfl⟩

/-- What the cut keeps has no U+0000 and no unpaired surrogate. -/
theorem cutAtNulOrUnpaired_clean (s : List CodeUnit) :
    (0 : CodeUnit) ∉ cutAtNulOrUnpaired s ∧ wellFormed (cutAtNulOrUnpaired s) = true := by
  refine units_induction (P := fun s => (0 : CodeUnit) ∉ cutAtNulOrUnpaired s
    ∧ wellFormed (cutAtNulOrUnpaired s) = true) ?_ ?_ s
  · exact ⟨by simp [cutAtNulOrUnpaired], rfl⟩
  · intro u s ih ih2
    rw [cutAtNulOrUnpaired_cons]
    by_cases h0 : u.val = 0
    · rw [if_pos h0]
      exact ⟨by simp, rfl⟩
    · have hne : ¬ (0 : CodeUnit) = u := fun e => h0 (by rw [← e]; rfl)
      rw [if_neg h0]
      cases hh : isHigh u
      · simp only [Bool.false_eq_true, if_false]
        cases hl : isLow u
        · simp only [Bool.false_eq_true, if_false]
          refine ⟨fun hm => ?_, ?_⟩
          · rcases List.mem_cons.mp hm with e | hm
            · exact hne e
            · exact ih.1 hm
          · rw [wellFormed_cons, hh]
            simp only [Bool.false_eq_true, if_false, hl, Bool.not_false, Bool.true_and]
            exact ih.2
        · simp only [if_true]
          exact ⟨by simp, rfl⟩
      · simp only [if_true]
        cases s with
        | nil => exact ⟨by simp, rfl⟩
        | cons v rest =>
          simp only []
          cases hl : isLow v
          · simp only [Bool.false_eq_true, if_false]
            exact ⟨by simp, rfl⟩
          · simp only [if_true]
            have hv : ¬ (0 : CodeUnit) = v := fun e =>
              surrogate_ne_zero v (Or.inr hl) (by rw [← e]; rfl)
            have r := ih2 v rest rfl
            refine ⟨fun hm => ?_, ?_⟩
            · rcases List.mem_cons.mp hm with e | hm
              · exact hne e
              · rcases List.mem_cons.mp hm with e | hm2
                · exact hv e
                · exact r.1 hm2
            · rw [wellFormed_cons, hh]
              simp only [if_true, hl, Bool.true_and]
              exact r.2

/-- The script string to host string path keeps a string exactly when it has no U+0000
and no unpaired surrogate. -/
theorem cutAtNulOrUnpaired_eq_self_iff (s : List CodeUnit) :
    cutAtNulOrUnpaired s = s ↔ (0 : CodeUnit) ∉ s ∧ wellFormed s = true := by
  constructor
  · intro h
    have c := cutAtNulOrUnpaired_clean s
    rw [h] at c
    exact c
  · exact fun h => cutAtNulOrUnpaired_eq_self s h.1 h.2

/-- Without a `script` the engine gets the empty text, without a `sourceURL` the label
`script.js`. -/
theorem codeStrOf_srcStrOf_default :
    codeStrOf none = [] ∧ srcStrOf none = utf16 "script.js" := by
  decide

/-! ## Facts about traces -/

theorem invocations_append (t u : List Event) :
    invocations (t ++ u) = invocations t ++ invocations u := by
  induction t with
  | nil => rfl
  | cons e t ih => cases e <;> simp [invocations, ih]

theorem invocations_jsValueToString (E : Engine) (v : JSValueRef) :
    invocations (jsValueToString E v).2 = [] := by
  unfold jsValueToString
  cases v with
  | none => rfl
  | some x => cases h : E.JSValueToStringCopy x <;> simp [h, invocations]

/-! ## C1: overload choice -/

/-- C1. For a call with a host reference in the private slot and at most two arguments,
the host invocations of `nativeCallback` are exactly the overload the specification's
preference table selects, invoked once on the referenced object, or none when the table
selects none: whatever methods the host class has. -/
theorem nativeCallback_follows_preference_table (E : Engine) (J : JVM) (function : JSObject)
    (javaCallback : JObject) (arguments : List JSValueRef) (exception : JSValueRef)
    (hp : JSObjectGetPrivate function = some javaCallback) (hn : arguments.length ≤ 2) :
    (invocations (nativeCallback E J function arguments exception).trace).map
        (fun i => (i.1, i.2.1))
      = (preferredOverload (J.GetObjectClass javaCallback).hasMethod arguments.length).toList.map
        (fun mid => (javaCallback, mid)) := by
  unfold nativeCallback
  rw [hp]
  match arguments, hn with
  | [], _ =>
    simp only [GetMethodID, preferredOverload, List.length_nil, if_true]
    cases (J.GetObjectClass javaCallback).hasMethod "call" "()V" <;>
      simp [invocations, invocations_append]
  | [a0], _ =>
    simp only [GetMethodID, preferredOverload, List.length_singleton]
    cases (J.GetObjectClass javaCallback).hasMethod "callString" sigStringString <;>
      cases (J.GetObjectClass javaCallback).hasMethod "call" sigStringVoid <;>
      simp [invocations, invocations_append, invocations_jsValueToString]
  | [a0, a1], _ =>
    simp only [GetMethodID, preferredOverload, List.length_cons, List.length_nil]
    cases (J.GetObjectClass javaCallback).hasMethod "callString" sigString2String <;>
      cases (J.GetObjectClass javaCallback).hasMethod "call" sigString2Void <;>
      simp [invocations, invocations_append, invocations_jsValueToString]
  | _ :: _ :: _ :: _, h => simp at h

/-- C1 at a concrete input: a class with both one-parameter overloads, one argument. -/
theorem nativeCallback_follows_preference_table_witness :
    (invocations (nativeCallback (fixedEngine ⟨none, none⟩) (oneClassJVM fullClass)
        ⟨some ⟨0, 0⟩⟩ [some (.string (utf16 "x"))] none).trace).map (fun i => (i.1, i.2.1))
      = [(⟨0, 0⟩, ⟨"callString", sigStringString⟩)] :=
  nativeCallback_follows_preference_table (fixedEngine ⟨none, none⟩) (oneClassJVM fullClass)
    ⟨some ⟨0, 0⟩⟩ ⟨0, 0⟩ [some (.string (utf16 "x"))] none rfl (by decide)

/-! ## C2: the string overload -/

/-- C2 as stated fails: a `callString(String)` that returns the three code units `a`,
U+0000, `b` gives the script the empty string, not a string with those contents; and so
does one that returns `a`, the unpaired surrogate D800, `b`. -/
theorem nativeCallback_string_result_with_nul :
    (nativeCallback (fixedEngine ⟨none, none⟩)
        (oneClassJVM (constantClass (some [0x61, 0, 0x62]))) ⟨some ⟨0, 0⟩⟩
        [some (.string (utf16 "x"))] none).value = JSValue.string []
      ∧ (nativeCallback (fixedEngine ⟨none, none⟩)
        (oneClassJVM (constantClass (some [0x61, 0, 0x62]))) ⟨some ⟨0, 0⟩⟩
        [some (.string (utf16 "x"))] none).value ≠ JSValue.string [0x61, 0, 0x62]
      ∧ (nativeCallback (fixedEngine ⟨none, none⟩)
        (oneClassJVM (constantClass (some [0x61, 0xD800, 0x62]))) ⟨some ⟨0, 0⟩⟩
        [some (.string (utf16 "x"))] none).value = JSValue.string [] := by
  decide

/-- C2, amended. When the `callString` of `n` parameters is found (`n` = 1 or 2), the
value returned to the script depends on the host return alone: for a null return it is
the undefined value; for a string `s` that has no U+0000 and no unpaired surrogate, the
empty string included, it is the script string with contents `s`. -/
theorem nativeCallback_string_overload (E : Engine) (J : JVM) (function : JSObject)
    (javaCallback : JObject) (exception : JSValueRef)
    (hp : JSObjectGetPrivate function = some javaCallback) :
    (∀ a0 : JSValueRef,
      (J.GetObjectClass javaCallback).hasMethod "callString" sigStringString = true →
      (CallMethod (J.GetObjectClass javaCallback) ⟨"callString", sigStringString⟩
          [marshalArgument E a0] = none →
        (nativeCallback E J function [a0] exception).value = JSValue.undefined) ∧
      (∀ s : JString, CallMethod (J.GetObjectClass javaCallback)
          ⟨"callString", sigStringString⟩ [marshalArgument E a0] = some s →
        (0 : CodeUnit) ∉ s → wellFormed s = true →
        (nativeCallback E J function [a0] exception).value = JSValue.string s)) ∧
    (∀ a0 a1 : JSValueRef,
      (J.GetObjectClass javaCallback).hasMethod "callString" sigString2String = true →
      (CallMethod (J.GetObjectClass javaCallback) ⟨"callString", sigString2String⟩
          [marshalArgument E a0, marshalArgument E a1] = none →
        (nativeCallback E J function [a0, a1] exception).value = JSValue.undefined) ∧
      (∀ s : JString, CallMethod (J.GetObjectClass javaCallback)
          ⟨"callString", sigString2String⟩ [marshalArgument E a0, marshalArgument E a1]
            = some s →
        (0 : CodeUnit) ∉ s → wellFormed s = true →
        (nativeCallback E J function [a0, a1] exception).value = JSValue.string s)) := by
  constructor
  · intro a0 h1
    unfold nativeCallback
    rw [hp]
    simp only [GetMethodID, h1, if_true]
    constructor
    · intro hr
      simp only [marshalArgument] at hr
      simp only [hr, returnOfHost, JSValueMakeUndefined]
    · intro s hr hs hw
      simp only [marshalArgument] at hr
      simp only [hr, returnOfHost, JSValueMakeString,
        JSStringCreate_GetStringUTFChars s hs hw]
  · intro a0 a1 h1
    unfold nativeCallback
    rw [hp]
    simp only [GetMethodID, h1, if_true]
    constructor
    · intro hr
      simp only [marshalArgument] at hr
      simp only [hr, returnOfHost, JSValueMakeUndefined]
    · intro s hr hs hw
      simp only [marshalArgument] at hr
      simp only [hr, returnOfHost, JSValueMakeString,
        JSStringCreate_GetStringUTFChars s hs hw]

/-- C2 at the input of the specification's example: `greet` bound to an object whose
`callString(String)` reverses its input. The call `greet('ab')` returns the string `ba`;
and `evaluate("greet('ab')", "t.js")`, on an engine that runs that script as the call of
the global `greet` with the argument `ab`, after `setObjectForKey("greet", ...)` on a new
context, returns `ba`. -/
theorem nativeCallback_string_overload_witness :
    (nativeCallback (fixedEngine ⟨none, none⟩) (oneClassJVM reverserClass) ⟨some ⟨0, 0⟩⟩
        [some (.string (utf16 "ab"))] none).value = JSValue.string (utf16 "ba")
      ∧ returned (Java_com_clevertree_jscbridge_JSContext_evaluateScript
          (callingEngine (oneClassJVM reverserClass) (utf16 "greet")
            [some (.string (utf16 "ab"))])
          (Java_com_clevertree_jscbridge_JSContext_setObjectForKey ⟨some freshContext, []⟩
            (utf16 "greet") (some ⟨7, 0⟩)).1.nativeContext
          (some (utf16 "greet('ab')")) (some (utf16 "t.js"))) = some (utf16 "ba") :=
  ⟨((nativeCallback_string_overload (fixedEngine ⟨none, none⟩) (oneClassJVM reverserClass)
    ⟨some ⟨0, 0⟩⟩ ⟨0, 0⟩ none rfl).1 (some (.string (utf16 "ab"))) (by decide)).2
      (utf16 "ba") (by decide) (by decide) (by decide), by decide⟩

/-! ## C5: what the host receives for an argument -/

/-- C5 as stated fails: for the argument string `a`, U+0000, `b`, which the engine coerces
to itself, the host method receives the one code unit `a`; and so it does for the
argument string `a`, the unpaired surrogate D800, `b`. -/
theorem nativeCallback_argument_with_nul :
    sampleToString (.string [0x61, 0, 0x62]) = some [0x61, 0, 0x62]
      ∧ invocations (nativeCallback (fixedEngine ⟨none, none⟩) (oneClassJVM loggerClass)
          ⟨some ⟨0, 0⟩⟩ [some (.string [0x61, 0, 0x62])] none).trace
        = [(⟨0, 0⟩, ⟨"call", sigStringVoid⟩, [[0x61]])]
      ∧ sampleToString (.string [0x61, 0xD800, 0x62]) = some [0x61, 0xD800, 0x62]
      ∧ invocations (nativeCallback (fixedEngine ⟨none, none⟩) (oneClassJVM loggerClass)
          ⟨some ⟨0, 0⟩⟩ [some (.string [0x61, 0xD800, 0x62])] none).trace
        = [(⟨0, 0⟩, ⟨"call", sigStringVoid⟩, [[0x61]])] := by
  decide

/-- C5, amended. In a call with one or two arguments for which an overload is found, the
host method is invoked once with one parameter per argument, in order, each the
marshaled argument; and for an argument that the engine coerces to the string `c`, the
marshaled argument is `c` cut at its first U+0000 or unpaired surrogate, hence `c` in
full when `c` has neither. -/
theorem nativeCallback_argument_marshaling (E : Engine) (J : JVM) (function : JSObject)
    (javaCallback : JObject) (arguments : List JSValueRef) (exception : JSValueRef)
    (mid : JMethodID) (hp : JSObjectGetPrivate function = some javaCallback)
    (hn : arguments.length = 1 ∨ arguments.length = 2)
    (hm : preferredOverload (J.GetObjectClass javaCallback).hasMethod arguments.length
      = some mid) :
    invocations (nativeCallback E J function arguments exception).trace
        = [(javaCallback, mid, arguments.map (marshalArgument E))]
      ∧ ∀ (v : JSValue) (c : JSStr), E.JSValueToStringCopy v = some c →
          marshalArgument E (some v) = cutAtNulOrUnpaired c
            ∧ ((0 : CodeUnit) ∉ c → wellFormed c = true →
                marshalArgument E (some v) = c) := by
  constructor
  · unfold nativeCallback
    rw [hp]
    match arguments, hn with
    | [a0], _ =>
      simp only [preferredOverload, List.length_singleton] at hm
      simp only [GetMethodID]
      cases h1 : (J.GetObjectClass javaCallback).hasMethod "callString" sigStringString <;>
        cases h2 : (J.GetObjectClass javaCallback).hasMethod "call" sigStringVoid <;>
        simp [h1, h2] at hm <;>
        simp [← hm, invocations, invocations_append, invocations_jsValueToString,
          marshalArgument]
    | [a0, a1], _ =>
      simp only [preferredOverload, List.length_cons, List.length_nil] at hm
      simp only [GetMethodID]
      cases h1 : (J.GetObjectClass javaCallback).hasMethod "callString" sigString2String <;>
        cases h2 : (J.GetObjectClass javaCallback).hasMethod "call" sigString2Void <;>
        simp [h1, h2] at hm <;>
        simp [← hm, invocations, invocations_append, invocations_jsValueToString,
          marshalArgument]
    | [], h => simp at h
    | _ :: _ :: _ :: _, h => simp at h
  · intro v c hc
    have e : marshalArgument E (some v) = cutAtNulOrUnpaired c := by
      simp only [marshalArgument, jsValueToString, hc]
      exact NewStringUTF_stdString c
    exact ⟨e, fun hz hw => by rw [e, cutAtNulOrUnpaired_eq_self c hz hw]⟩

/-- C5, amended, at a concrete input: `log('x')` on a class that has only
`call(String)`. -/
theorem nativeCallback_argument_marshaling_witness :
    invocations (nativeCallback (fixedEngine ⟨none, none⟩) (oneClassJVM loggerClass)
        ⟨some ⟨0, 0⟩⟩ [some (.string (utf16 "x"))] none).trace
      = [(⟨0, 0⟩, ⟨"call", sigStringVoid⟩, [(utf16 "x")])] :=
  (nativeCallback_argument_marshaling (fixedEngine ⟨none, none⟩) (oneClassJVM loggerClass)
    ⟨some ⟨0, 0⟩⟩ ⟨0, 0⟩ [some (.string (utf16 "x"))] none ⟨"call", sigStringVoid⟩ rfl
    (Or.inl rfl) (by decide)).1

/-! ## C3: the void overload -/

/-- C3. On a host class without the `callString` of `n` parameters but with the void
`call` of `n` parameters (`n` = 1 or 2), `nativeCallback` invokes that `call` once and
nothing else; parameter `i` is the marshaled script argument `i`; the value returned to
the script is undefined. -/
theorem nativeCallback_void_overload (E : Engine) (J : JVM) (function : JSObject)
    (javaCallback : JObject) (exception : JSValueRef)
    (hp : JSObjectGetPrivate function = some javaCallback) :
    (∀ a0 : JSValueRef,
      (J.GetObjectClass javaCallback).hasMethod "callString" sigStringString = false →
      (J.GetObjectClass javaCallback).hasMethod "call" sigStringVoid = true →
      invocations (nativeCallback E J function [a0] exception).trace
          = [(javaCallback, ⟨"call", sigStringVoid⟩, [marshalArgument E a0])]
        ∧ (nativeCallback E J function [a0] exception).value = JSValue.undefined) ∧
    (∀ a0 a1 : JSValueRef,
      (J.GetObjectClass javaCallback).hasMethod "callString" sigString2String = false →
      (J.GetObjectClass javaCallback).hasMethod "call" sigString2Void = true →
      invocations (nativeCallback E J function [a0, a1] exception).trace
          = [(javaCallback, ⟨"call", sigString2Void⟩,
              [marshalArgument E a0, marshalArgument E a1])]
        ∧ (nativeCallback E J function [a0, a1] exception).value = JSValue.undefined) := by
  constructor
  · intro a0 h1 h2
    unfold nativeCallback
    rw [hp]
    simp [GetMethodID, h1, h2, invocations, invocations_append, invocations_jsValueToString,
      marshalArgument, JSValueMakeUndefined]
  · intro a0 a1 h1 h2
    unfold nativeCallback
    rw [hp]
    simp [GetMethodID, h1, h2, invocations, invocations_append, invocations_jsValueToString,
      marshalArgument, JSValueMakeUndefined]

/-- C3 at the input of the specification's example: `log` bound to an object that has
only `call(String)`, called as `log('x')`. -/
theorem nativeCallback_void_overload_witness :
    invocations (nativeCallback (fixedEngine ⟨none, none⟩) (oneClassJVM loggerClass)
        ⟨some ⟨0, 0⟩⟩ [some (.string (utf16 "x"))] none).trace
        = [(⟨0, 0⟩, ⟨"call", sigStringVoid⟩, [(utf16 "x")])]
      ∧ (nativeCallback (fixedEngine ⟨none, none⟩) (oneClassJVM loggerClass)
          ⟨some ⟨0, 0⟩⟩ [some (.string (utf16 "x"))] none).value = JSValue.undefined :=
  (nativeCallback_void_overload (fixedEngine ⟨none, none⟩) (oneClassJVM loggerClass)
    ⟨some ⟨0, 0⟩⟩ ⟨0, 0⟩ none rfl).1 (some (.string (utf16 "x"))) (by decide) (by decide)

/-! ## C6: no overload found -/

/-- C6, the code at the failing input and around it. With one argument and neither
one-parameter overload, `nativeCallback` emits an error log entry, invokes no host
method, leaves the exception slot as it was and returns undefined. With two arguments and
neither two-parameter overload it does the same except for the log: its trace holds no
error log entry. The last part is the trace at the failing input, arguments `a` and `b`
on a class without methods. -/
theorem nativeCallback_two_arguments_failure_not_logged :
    (∀ (E : Engine) (J : JVM) (function : JSObject) (javaCallback : JObject)
        (a0 : JSValueRef) (exception : JSValueRef),
      JSObjectGetPrivate function = some javaCallback →
      (J.GetObjectClass javaCallback).hasMethod "callString" sigStringString = false →
      (J.GetObjectClass javaCallback).hasMethod "call" sigStringVoid = false →
      (nativeCallback E J function [a0] exception).trace.any Event.isErrorLog = true
        ∧ invocations (nativeCallback E J function [a0] exception).trace = []
        ∧ (nativeCallback E J function [a0] exception).exception = exception
        ∧ (nativeCallback E J function [a0] exception).value = JSValue.undefined) ∧
    (∀ (E : Engine) (J : JVM) (function : JSObject) (javaCallback : JObject)
        (a0 a1 : JSValueRef) (exception : JSValueRef),
      JSObjectGetPrivate function = some javaCallback →
      (J.GetObjectClass javaCallback).hasMethod "callString" sigString2String = false →
      (J.GetObjectClass javaCallback).hasMethod "call" sigString2Void = false →
      (nativeCallback E J function [a0, a1] exception).trace.any Event.isErrorLog = false
        ∧ invocations (nativeCallback E J function [a0, a1] exception).trace = []
        ∧ (nativeCallback E J function [a0, a1] exception).exception = exception
        ∧ (nativeCallback E J function [a0, a1] exception).value = JSValue.undefined) ∧
    (nativeCallback (fixedEngine ⟨none, none⟩) (oneClassJVM emptyClass) ⟨some ⟨0, 0⟩⟩
        [some (.string (utf16 "a")), some (.string (utf16 "b"))] none)
      = ⟨JSValue.undefined, none,
          [Event.getEnv, Event.getObjectClass ⟨0, 0⟩,
           Event.log .info "nativeCallback: argumentCount=%zu" [.num 2],
           Event.getMethodID "callString" sigString2String,
           Event.getMethodID "call" sigString2Void]⟩ := by
  refine ⟨?_, ?_, by decide⟩
  · intro E J function javaCallback a0 exception hp h1 h2
    unfold nativeCallback
    rw [hp]
    simp [GetMethodID, h1, h2, invocations, Event.isErrorLog, JSValueMakeUndefined]
  · intro E J function javaCallback a0 a1 exception hp h1 h2
    unfold nativeCallback
    rw [hp]
    simp [GetMethodID, h1, h2, invocations, Event.isErrorLog, JSValueMakeUndefined]

/-! ## C8: more than two arguments -/

/-- C8. With more than two arguments `nativeCallback` returns the undefined value, leaves
the exception slot as it was, and its trace holds no method lookup, no host invocation
and no string coercion: whatever the private slot and the host class. -/
theorem nativeCallback_more_than_two_arguments (E : Engine) (J : JVM) (function : JSObject)
    (arguments : List JSValueRef) (exception : JSValueRef) (hn : 2 < arguments.length) :
    (nativeCallback E J function arguments exception).value = JSValue.undefined
      ∧ (nativeCallback E J function arguments exception).exception = exception
      ∧ ∀ e ∈ (nativeCallback E J function arguments exception).trace,
          e.isLookup = false ∧ e.isCall = false ∧ e.isCoercion = false := by
  unfold nativeCallback
  match arguments, hn with
  | [], h => simp at h
  | [_], h => simp at h
  | [_, _], h => simp at h
  | a0 :: a1 :: a2 :: rest, _ =>
    cases h : JSObjectGetPrivate function <;>
      simp [JSValueMakeUndefined, Event.isLookup, Event.isCall, Event.isCoercion]

/-- C8 at the input of the specification's example: `greet('a','b','c')` on a class that
has every overload. -/
theorem nativeCallback_more_than_two_arguments_witness :
    (nativeCallback (fixedEngine ⟨none, none⟩) (oneClassJVM fullClass) ⟨some ⟨0, 0⟩⟩
        [some (.string (utf16 "a")), some (.string (utf16 "b")), some (.string (utf16 "c"))]
        none).value = JSValue.undefined
      ∧ (nativeCallback (fixedEngine ⟨none, none⟩) (oneClassJVM fullClass) ⟨some ⟨0, 0⟩⟩
        [some (.string (utf16 "a")), some (.string (utf16 "b")), some (.string (utf16 "c"))]
        none).exception = none
      ∧ ∀ e ∈ (nativeCallback (fixedEngine ⟨none, none⟩) (oneClassJVM fullClass)
          ⟨some ⟨0, 0⟩⟩
          [some (.string (utf16 "a")), some (.string (utf16 "b")), some (.string (utf16 "c"))]
          none).trace,
          e.isLookup = false ∧ e.isCall = false ∧ e.isCoercion = false :=
  nativeCallback_more_than_two_arguments (fixedEngine ⟨none, none⟩) (oneClassJVM fullClass)
    ⟨some ⟨0, 0⟩⟩
    [some (.string (utf16 "a")), some (.string (utf16 "b")), some (.string (utf16 "c"))]
    none (by decide)

/-! ## C9: no host reference in the private slot -/

/-- C9 as stated fails: with an empty private slot the trace holds an error log entry. -/
theorem nativeCallback_without_reference_logs_error :
    (nativeCallback (fixedEngine ⟨none, none⟩) (oneClassJVM fullClass) ⟨none⟩
      [some (.string (utf16 "a"))] none).trace.any Event.isErrorLog = true := by
  decide

/-- C9, amended. When the private slot holds no host reference, `nativeCallback` returns
the undefined value, leaves the exception slot as it was, and its only step is one error
log entry: no thread attachment, no method lookup, no coercion, no host invocation. -/
theorem nativeCallback_without_reference (E : Engine) (J : JVM)
    (arguments : List JSValueRef) (exception : JSValueRef) :
    nativeCallback E J ⟨none⟩ arguments exception
      = ⟨JSValue.undefined, exception,
          [Event.log .error "nativeCallback: No javaCallback private data" []]⟩ := by
  rfl

/-! ## Facts about `evaluateScript` -/

theorem evaluateScript_of_exception (E : Engine) (ctx : JSGlobalContext)
    (script sourceURL : Option JString) (ex : JSValue) (r : JSStr)
    (h1 : (E.JSEvaluateScript ctx (codeStrOf script) (srcStrOf sourceURL)).exception = some ex)
    (h2 : E.JSValueToStringCopy ex = some r) :
    returned (Java_com_clevertree_jscbridge_JSContext_evaluateScript E (some ctx) script
      sourceURL) = some (cutAtNulOrUnpaired r) := by
  simp only [returned, Java_com_clevertree_jscbridge_JSContext_evaluateScript, h1, h2,
    Option.map_some', NewStringUTF_JSString]

theorem evaluateScript_of_result (E : Engine) (ctx : JSGlobalContext)
    (script sourceURL : Option JString) (v : JSValue) (r : JSStr)
    (h1 : (E.JSEvaluateScript ctx (codeStrOf script) (srcStrOf sourceURL)).exception = none)
    (h2 : (E.JSEvaluateScript ctx (codeStrOf script) (srcStrOf sourceURL)).result = some v)
    (h3 : E.JSValueToStringCopy v = some r) :
    returned (Java_com_clevertree_jscbridge_JSContext_evaluateScript E (some ctx) script
      sourceURL) = some (cutAtNulOrUnpaired r) := by
  simp only [returned, Java_com_clevertree_jscbridge_JSContext_evaluateScript, h1, h2, h3,
    Option.map_some', NewStringUTF_JSString]

theorem evaluateScript_of_nothing (E : Engine) (ctx : JSGlobalContext)
    (script sourceURL : Option JString)
    (h1 : (E.JSEvaluateScript ctx (codeStrOf script) (srcStrOf sourceURL)).exception = none)
    (h2 : (E.JSEvaluateScript ctx (codeStrOf script) (srcStrOf sourceURL)).result = none) :
    returned (Java_com_clevertree_jscbridge_JSContext_evaluateScript E (some ctx) script
      sourceURL) = some [] := by
  simp only [returned, Java_com_clevertree_jscbridge_JSContext_evaluateScript, h1, h2,
    Option.map_some']
  rfl

theorem evaluateScript_trace (E : Engine) (ctx : JSGlobalContext)
    (script sourceURL : Option JString) (x : EvaluateReturn)
    (hx : Java_com_clevertree_jscbridge_JSContext_evaluateScript E (some ctx) script sourceURL
      = some x) :
    Event.evaluate (codeStrOf script) (srcStrOf sourceURL) ∈ x.trace := by
  simp only [Java_com_clevertree_jscbridge_JSContext_evaluateScript] at hx
  split at hx
  · split at hx
    · exact absurd hx (by simp)
    · simp only [Option.some.injEq] at hx
      subst hx
      simp
  · split at hx
    · split at hx
      · exact absurd hx (by simp)
      · simp only [Option.some.injEq] at hx
        subst hx
        simp
    · simp only [Option.some.injEq] at hx
      subst hx
      simp

/-! ## C4: what `evaluateScript` returns -/

/-- C4 as stated fails: when the script completes with the string `a`, U+0000, `b`, whose
string form is itself, `evaluateScript` returns the one code unit `a`; and so it does
when the script completes with the string `a`, the unpaired surrogate D800, `b`. -/
theorem evaluateScript_result_with_nul :
    sampleToString (.string [0x61, 0, 0x62]) = some [0x61, 0, 0x62]
      ∧ returned (Java_com_clevertree_jscbridge_JSContext_evaluateScript
          (fixedEngine ⟨some (.string [0x61, 0, 0x62]), none⟩) (some freshContext)
          (some (utf16 "'a\\0b'")) (some (utf16 "t.js"))) = some [0x61]
      ∧ sampleToString (.string [0x61, 0xD800, 0x62]) = some [0x61, 0xD800, 0x62]
      ∧ returned (Java_com_clevertree_jscbridge_JSContext_evaluateScript
          (fixedEngine ⟨some (.string [0x61, 0xD800, 0x62]), none⟩) (some freshContext)
          (some (utf16 "'a\\uD800b'")) (some (utf16 "t.js"))) = some [0x61] := by
  decide

/-- C4, amended. On a non-null context `evaluateScript` returns a string chosen from the
engine's outcome by a fixed priority: with an exception, the string form of the exception
value, whatever the result value; otherwise, with a result value, the string form of
that value; otherwise the empty string. The string form is returned cut at its first
U+0000 or unpaired surrogate, hence in full when it has neither. In each case a string
is returned: nothing is thrown to the host. -/
theorem evaluateScript_priority (E : Engine) (ctx : JSGlobalContext)
    (script sourceURL : Option JString) :
    (∀ (ex : JSValue) (r : JSStr),
        (E.JSEvaluateScript ctx (codeStrOf script) (srcStrOf sourceURL)).exception = some ex →
        E.JSValueToStringCopy ex = some r →
        returned (Java_com_clevertree_jscbridge_JSContext_evaluateScript E (some ctx) script
          sourceURL) = some (cutAtNulOrUnpaired r)) ∧
    (∀ (v : JSValue) (r : JSStr),
        (E.JSEvaluateScript ctx (codeStrOf script) (srcStrOf sourceURL)).exception = none →
        (E.JSEvaluateScript ctx (codeStrOf script) (srcStrOf sourceURL)).result = some v →
        E.JSValueToStringCopy v = some r →
        returned (Java_com_clevertree_jscbridge_JSContext_evaluateScript E (some ctx) script
          sourceURL) = some (cutAtNulOrUnpaired r)) ∧
    ((E.JSEvaluateScript ctx (codeStrOf script) (srcStrOf sourceURL)).exception = none →
        (E.JSEvaluateScript ctx (codeStrOf script) (srcStrOf sourceURL)).result = none →
        returned (Java_com_clevertree_jscbridge_JSContext_evaluateScript E (some ctx) script
          sourceURL) = some []) ∧
    (∀ r : JSStr, (0 : CodeUnit) ∉ r → wellFormed r = true → cutAtNulOrUnpaired r = r) := by
  exact ⟨evaluateScript_of_exception E ctx script sourceURL,
    evaluateScript_of_result E ctx script sourceURL,
    evaluateScript_of_nothing E ctx script sourceURL, cutAtNulOrUnpaired_eq_self⟩

/-- C4 at the inputs of the specification's examples, on the sample engine:
`evaluate("1+1", "t.js")` returns `2`, and `evaluate("not valid js (((", "t.js")` returns
the engine's diagnostic, a non-empty string. -/
theorem evaluateScript_priority_witness :
    returned (Java_com_clevertree_jscbridge_JSContext_evaluateScript sampleEngine
        (some freshContext) (some (utf16 "1+1")) (some (utf16 "t.js"))) = some (utf16 "2")
      ∧ returned (Java_com_clevertree_jscbridge_JSContext_evaluateScript sampleEngine
          (some freshContext) (some (utf16 "not valid js (((")) (some (utf16 "t.js")))
        = some (utf16 "SyntaxError: Unexpected identifier") :=
  ⟨((evaluateScript_priority sampleEngine freshContext (some (utf16 "1+1"))
      (some (utf16 "t.js"))).2.1 (.other 2) (utf16 "2") (by decide) (by decide)
      (by decide)).trans
      (congrArg some (cutAtNulOrUnpaired_eq_self (utf16 "2") (by decide) (by decide))),
    ((evaluateScript_priority sampleEngine freshContext (some (utf16 "not valid js ((("))
      (some (utf16 "t.js"))).1 (.other 1) (utf16 "SyntaxError: Unexpected identifier")
      (by decide) (by decide)).trans
      (congrArg some (cutAtNulOrUnpaired_eq_self (utf16 "SyntaxError: Unexpected identifier")
        (by decide) (by decide)))⟩

/-! ## C10: empty or absent code -/

/-- C10 as stated fails: on an engine that completes the empty script with the undefined
value, `evaluateScript` with a null `script`, and with the empty string, returns
`undefined`. -/
theorem evaluateScript_empty_code_returns_undefined :
    returned (Java_com_clevertree_jscbridge_JSContext_evaluateScript sampleEngine
        (some freshContext) none none) = some (utf16 "undefined")
      ∧ returned (Java_com_clevertree_jscbridge_JSContext_evaluateScript sampleEngine
          (some freshContext) (some []) none) = some (utf16 "undefined") := by
  decide

/-- C10, amended. With a null `script` or the empty string, on a non-null context, the
engine is handed the empty source text; the returned string is the empty string when the
engine reports neither an exception nor a result value for it, and the string form of
the result value (cut at its first U+0000 or unpaired surrogate; on a string form
without unpaired surrogate that is the cut at the first U+0000) when the engine reports
one and no exception. -/
theorem evaluateScript_empty_code (E : Engine) (ctx : JSGlobalContext)
    (script sourceURL : Option JString) (hs : script = none ∨ script = some []) :
    codeStrOf script = []
      ∧ (∀ x, Java_com_clevertree_jscbridge_JSContext_evaluateScript E (some ctx) script
            sourceURL = some x →
          Event.evaluate [] (srcStrOf sourceURL) ∈ x.trace)
      ∧ (E.JSEvaluateScript ctx [] (srcStrOf sourceURL) = ⟨none, none⟩ →
          returned (Java_com_clevertree_jscbridge_JSContext_evaluateScript E (some ctx) script
            sourceURL) = some [])
      ∧ (∀ (v : JSValue) (r : JSStr),
          E.JSEvaluateScript ctx [] (srcStrOf sourceURL) = ⟨some v, none⟩ →
          E.JSValueToStringCopy v = some r →
          returned (Java_com_clevertree_jscbridge_JSContext_evaluateScript E (some ctx) script
            sourceURL) = some (cutAtNulOrUnpaired r))
      ∧ (∀ r : JSStr, wellFormed r = true →
          cutAtNulOrUnpaired r = r.takeWhile (fun u => u != 0)) := by
  have hc : codeStrOf script = [] := by
    rcases hs with h | h <;> subst h <;> decide
  refine ⟨hc, ?_, ?_, ?_, cutAtNulOrUnpaired_of_wellFormed⟩
  · intro x hx
    have h := evaluateScript_trace E ctx script sourceURL x hx
    rwa [hc] at h
  · intro h
    have h1 := evaluateScript_of_nothing E ctx script sourceURL
    rw [hc, h] at h1
    exact h1 rfl rfl
  · intro v r h hr
    have h1 := evaluateScript_of_result E ctx script sourceURL v r
    rw [hc, h] at h1
    exact h1 rfl rfl hr

/-- C10, amended, at a concrete input: a null `script` on an engine that reports neither
an exception nor a result value. -/
theorem evaluateScript_empty_code_witness :
    returned (Java_com_clevertree_jscbridge_JSContext_evaluateScript
      (fixedEngine ⟨none, none⟩) (some freshContext) none none) = some [] :=
  (evaluateScript_empty_code (fixedEngine ⟨none, none⟩) freshContext none none
    (Or.inl rfl)).2.2.1 rfl

/-! ## C7: binding a name twice -/

theorem invocations_receiver (E : Engine) (J : JVM) (r : JObject)
    (arguments : List JSValueRef) (exception : JSValueRef) :
    ∀ i ∈ invocations (nativeCallback E J ⟨some r⟩ arguments exception).trace, i.1 = r := by
  unfold nativeCallback
  simp only [JSObjectGetPrivate]
  match arguments with
  | [] =>
    simp only [GetMethodID]
    cases (J.GetObjectClass r).hasMethod "call" "()V" <;>
      simp [invocations, invocations_append]
  | [a0] =>
    simp only [GetMethodID]
    cases (J.GetObjectClass r).hasMethod "callString" sigStringString <;>
      cases (J.GetObjectClass r).hasMethod "call" sigStringVoid <;>
      simp [invocations, invocations_append, invocations_jsValueToString]
  | [a0, a1] =>
    simp only [GetMethodID]
    cases (J.GetObjectClass r).hasMethod "callString" sigString2String <;>
      cases (J.GetObjectClass r).hasMethod "call" sigString2Void <;>
      simp [invocations, invocations_append, invocations_jsValueToString]
  | _ :: _ :: _ :: _ => simp [invocations]

/-- C7 as stated fails, on a new context. After binding the name `a`, U+0000, `b` twice,
the global property of that name holds nothing: the callable sits under the empty name.
The same for the name `a`, unpaired surrogate D800, `b`. After binding the name `NaN`
twice, the property `NaN`, which is read-only, still holds its number and no callable.
And on a context whose global object has been made non-extensible, binding `greet` twice
leaves no property `greet`. -/
theorem setObjectForKey_name_with_nul :
    (bindTwice ⟨some freshContext, []⟩ [0x61, 0, 0x62] ⟨0, 0⟩ ⟨1, 1⟩).nativeContext.bind
        (fun ctx => JSObjectGetProperty ctx [0x61, 0, 0x62]) = none
      ∧ (bindTwice ⟨some freshContext, []⟩ [0x61, 0, 0x62] ⟨0, 0⟩ ⟨1, 1⟩).nativeContext.bind
        (fun ctx => JSObjectGetProperty ctx []) = some (.object ⟨some ⟨1, 1⟩⟩)
      ∧ (bindTwice ⟨some freshContext, []⟩ [0x61, 0xD800, 0x62] ⟨0, 0⟩
          ⟨1, 1⟩).nativeContext.bind
        (fun ctx => JSObjectGetProperty ctx [0x61, 0xD800, 0x62]) = none
      ∧ (bindTwice ⟨some freshContext, []⟩ (utf16 "NaN") ⟨0, 0⟩ ⟨1, 1⟩).nativeContext.bind
        (fun ctx => JSObjectGetProperty ctx (utf16 "NaN")) = some (.other 0)
      ∧ (bindTwice ⟨some ⟨freshContext.globalObject, false⟩, []⟩ (utf16 "greet") ⟨0, 0⟩
          ⟨1, 1⟩).nativeContext.bind
        (fun ctx => JSObjectGetProperty ctx (utf16 "greet")) = none := by
  decide

/-- C7, amended. For a context, host callbacks `a` and `b`, and a name without U+0000 and
without unpaired surrogate for which the global object accepts a put (the property is
not there and the global object is extensible, or it is there and writable): after
`setObjectForKey(name, a)` and then `setObjectForKey(name, b)` the global property `name`
holds a callable whose private slot is the global reference made for `b`, which is not
the one made for `a` (both stay alive); a script call through the property `name` runs
`nativeCallback` on that callable, and every host invocation it makes has the reference
to `b` as receiver, never the reference to `a`, and never the object `a` when `a` and `b`
are two objects. -/
theorem setObjectForKey_rebinding (ctx : JSGlobalContext) (refs : List JObject)
    (name : JString) (a b : JObject) (hname : (0 : CodeUnit) ∉ name)
    (hwf : wellFormed name = true) (hput : ctx.acceptsPut name = true) :
    ∃ ctx2 : JSGlobalContext,
      bindTwice ⟨some ctx, refs⟩ name a b
          = ⟨some ctx2, refs ++ [⟨refs.length, a.obj⟩, ⟨refs.length + 1, b.obj⟩]⟩
        ∧ JSObjectGetProperty ctx2 name
          = some (JSValue.object ⟨some ⟨refs.length + 1, b.obj⟩⟩)
        ∧ ∀ (E : Engine) (J : JVM) (arguments : List JSValueRef) (exception : JSValueRef),
            callGlobal E J ctx2 name arguments exception
                = some (nativeCallback E J ⟨some ⟨refs.length + 1, b.obj⟩⟩ arguments exception)
              ∧ ∀ i ∈ invocations (nativeCallback E J ⟨some ⟨refs.length + 1, b.obj⟩⟩
                    arguments exception).trace,
                  i.1 = ⟨refs.length + 1, b.obj⟩ ∧ i.1.ref ≠ refs.length
                    ∧ (a.obj ≠ b.obj → i.1.obj ≠ a.obj) := by
  have hk := JSStringCreate_GetStringUTFChars name hname hwf
  have hput2 : (JSObjectSetProperty ctx name
      (JSValue.object ⟨some ⟨refs.length, a.obj⟩⟩)).acceptsPut name = true := by
    rw [JSObjectSetProperty, if_pos hput]
    simp [JSGlobalContext.acceptsPut, List.lookup]
  refine ⟨JSObjectSetProperty
      (JSObjectSetProperty ctx name (JSValue.object ⟨some ⟨refs.length, a.obj⟩⟩)) name
      (JSValue.object ⟨some ⟨refs.length + 1, b.obj⟩⟩), ?_, ?_, ?_⟩
  · simp [bindTwice, Java_com_clevertree_jscbridge_JSContext_setObjectForKey, NewGlobalRef,
      hk, JSObjectMake]
  · rw [JSObjectSetProperty, if_pos hput2]
    simp [JSObjectGetProperty, List.lookup]
  · intro E J arguments exception
    constructor
    · rw [JSObjectSetProperty, if_pos hput2]
      simp [callGlobal, JSObjectGetProperty, List.lookup]
    · intro i hi
      have h := invocations_receiver E J ⟨refs.length + 1, b.obj⟩ arguments exception i hi
      rw [h]
      exact ⟨rfl, by simp, fun hab => fun e => hab e.symm⟩

/-- C7, amended, at the input of the specification's example: `greet` bound to object 0
and then to object 1, on a new context. -/
theorem setObjectForKey_rebinding_witness :
    ∃ ctx2 : JSGlobalContext,
      bindTwice ⟨some freshContext, []⟩ (utf16 "greet") ⟨7, 0⟩ ⟨8, 1⟩
          = ⟨some ctx2, [⟨0, 0⟩, ⟨1, 1⟩]⟩
        ∧ JSObjectGetProperty ctx2 (utf16 "greet") = some (JSValue.object ⟨some ⟨1, 1⟩⟩)
        ∧ ∀ (E : Engine) (J : JVM) (arguments : List JSValueRef) (exception : JSValueRef),
            callGlobal E J ctx2 (utf16 "greet") arguments exception
                = some (nativeCallback E J ⟨some ⟨1, 1⟩⟩ arguments exception)
              ∧ ∀ i ∈ invocations (nativeCallback E J ⟨some ⟨1, 1⟩⟩
                    arguments exception).trace,
                  i.1 = ⟨1, 1⟩ ∧ i.1.ref ≠ 0 ∧ ((0 : Nat) ≠ 1 → i.1.obj ≠ 0) :=
  setObjectForKey_rebinding freshContext [] (utf16 "greet") ⟨7, 0⟩ ⟨8, 1⟩ (by decide)
    (by decide) (by decide)

end JSCBridge
